import Mathlib

/-!
Shallow embedding of `src/or/rendcache.c` (Tor's hidden-service descriptor
cache) and proofs about its specification claims.

The cache keeps two indexes over descriptor entries — a client index keyed by
lowercased `"<version><service_id>"` strings and a directory index keyed by
20-byte descriptor-id digests (modelled as `Nat`) — together with a saturating
byte accountant.  External collaborators (the wire parser, the hash-ring
responsibility predicate, clocks) are passed in as parameters, following the
contracts in §6 of the specification.
-/

namespace RendCache

/-- Maximum value of the C `size_t` type on the modelled 64-bit platform. -/
def SIZE_MAX : Nat := 2 ^ 64 - 1

/-- Modelled from the spec: `REND_CACHE_MAX_AGE` comes from `rendcache.h`,
which is not part of this source tree; the repository header sets the maximum
descriptor age to two days. -/
def REND_CACHE_MAX_AGE : Int := 2 * 24 * 60 * 60

/-- Modelled from the spec: `REND_CACHE_MAX_SKEW` comes from `rendcache.h`,
which is not part of this source tree; the repository header sets the allowed
clock skew to one day. -/
def REND_CACHE_MAX_SKEW : Int := 24 * 60 * 60

/-- Model constant standing for the C expression `sizeof(rend_cache_entry_t)`. -/
def sizeof_rend_cache_entry_t : Nat := 48

/-- Model constant standing for the C expression
`sizeof(rend_service_descriptor_t)`. -/
def sizeof_rend_service_descriptor_t : Nat := 96

/-- The parsed representation of a descriptor (`rend_service_descriptor_t`).
Only the fields the cache logic inspects are modelled: the signed timestamp
and the public key (abstracted to a `Nat`). -/
structure rend_service_descriptor_t where
  timestamp : Int
  pk : Nat
  deriving DecidableEq

/-- One cache entry (`rend_cache_entry_t`): the encoded bytes `desc`, their
length `len`, the parsed form, and the `last_served` wall-clock stamp. -/
structure rend_cache_entry_t where
  desc : String
  len : Nat
  parsed : rend_service_descriptor_t
  last_served : Int
  deriving DecidableEq

/-- `rend_cache_entry_allocation`: approximate number of bytes needed to hold
an entry, namely `sizeof(*e) + e->len + sizeof(*e->parsed)`. -/
def rend_cache_entry_allocation (e : rend_cache_entry_t) : Nat :=
  sizeof_rend_cache_entry_t + e.len + sizeof_rend_service_descriptor_t

/-- The module's mutable state: the client map `rend_cache`, the directory map
`rend_cache_v2_dir`, the byte accountant `rend_cache_total_allocation`, and
the two one-shot warning flags (C `static int`s inside the accountant). -/
structure RendCacheState where
  rend_cache : List (String × rend_cache_entry_t)
  rend_cache_v2_dir : List (Nat × rend_cache_entry_t)
  rend_cache_total_allocation : Nat
  have_underflowed : Bool
  have_overflowed : Bool
  deriving DecidableEq

/-- `rend_cache_init`: both maps empty, accountant zero, no warnings yet. -/
def initState : RendCacheState :=
  { rend_cache := []
    rend_cache_v2_dir := []
    rend_cache_total_allocation := 0
    have_underflowed := false
    have_overflowed := false }

/-- Map update with in-place replacement of the first binding for the key
(appending when absent), mirroring `strmap_set` / `digestmap_set` semantics. -/
def mapSet {α β : Type} [DecidableEq α] (k : α) (v : β) :
    List (α × β) → List (α × β)
  | [] => [(k, v)]
  | (k', v') :: t => if k' = k then (k, v) :: t else (k', v') :: mapSet k v t

/-- Map lookup returning the first binding for the key. -/
def mapGet {α β : Type} [DecidableEq α] (k : α) : List (α × β) → Option β
  | [] => none
  | (k', v') :: t => if k' = k then some v' else mapGet k t

/-- ASCII lowercasing of a whole string, as `tor_strlower` does to client keys. -/
def strLower (s : String) : String := ⟨s.data.map Char.toLower⟩

/-- Modelled from the spec: `strmap_get_lc` lives in the repository's container
library, which is not part of this source tree; per the spec (§3) client key
comparison is case-insensitive, implemented by lowercasing the key. -/
def strmap_get_lc (m : List (String × rend_cache_entry_t)) (k : String) :
    Option rend_cache_entry_t :=
  mapGet (strLower k) m

/-- Modelled from the spec: `strmap_set_lc` lowercases the key before storing. -/
def strmap_set_lc (m : List (String × rend_cache_entry_t)) (k : String)
    (v : rend_cache_entry_t) : List (String × rend_cache_entry_t) :=
  mapSet (strLower k) v m

/-- `digestmap_get` on the directory index. -/
def digestmap_get (m : List (Nat × rend_cache_entry_t)) (k : Nat) :
    Option rend_cache_entry_t :=
  mapGet k m

/-- `digestmap_set` on the directory index. -/
def digestmap_set (m : List (Nat × rend_cache_entry_t)) (k : Nat)
    (v : rend_cache_entry_t) : List (Nat × rend_cache_entry_t) :=
  mapSet k v m

/-- `rend_cache_decrement_allocation`: subtract `n` from the running total,
clamping at zero (and recording the one-shot underflow warning) if `n`
exceeds the total. -/
def rend_cache_decrement_allocation (st : RendCacheState) (n : Nat) :
    RendCacheState :=
  if n ≤ st.rend_cache_total_allocation then
    { st with rend_cache_total_allocation :=
        st.rend_cache_total_allocation - n }
  else
    { st with rend_cache_total_allocation := 0, have_underflowed := true }

/-- `rend_cache_increment_allocation`: add `n` to the running total, clamping
at `SIZE_MAX` (and recording the one-shot overflow warning) if the sum would
not be representable. -/
def rend_cache_increment_allocation (st : RendCacheState) (n : Nat) :
    RendCacheState :=
  if st.rend_cache_total_allocation ≤ SIZE_MAX - n then
    { st with rend_cache_total_allocation :=
        st.rend_cache_total_allocation + n }
  else
    { st with rend_cache_total_allocation := SIZE_MAX, have_overflowed := true }

/-- `rend_cache_entry_free`: the accountant effect of freeing one entry
(debit the entry's charge; the memory releases themselves have no model
footprint). -/
def rend_cache_entry_free (st : RendCacheState) (e : rend_cache_entry_t) :
    RendCacheState :=
  rend_cache_decrement_allocation st (rend_cache_entry_allocation e)

/-- Accountant effect of freeing every entry of a map, as `strmap_free` /
`digestmap_free` do with `rend_cache_entry_free_`. -/
def freeEntries {α : Type} (st : RendCacheState) :
    List (α × rend_cache_entry_t) → RendCacheState
  | [] => st
  | (_, e) :: t => freeEntries (rend_cache_entry_free st e) t

/-- `rend_cache_free_all`: free every entry of both maps, null both maps out,
and zero the accountant. -/
def rend_cache_free_all (st : RendCacheState) : RendCacheState :=
  let st1 := freeEntries st st.rend_cache
  let st2 := freeEntries st1 st.rend_cache_v2_dir
  { st2 with
    rend_cache := []
    rend_cache_v2_dir := []
    rend_cache_total_allocation := 0 }

/-- `rend_cache_purge`: free every entry of the client map only and reinstall
an empty client map; the directory map is untouched. -/
def rend_cache_purge (st : RendCacheState) : RendCacheState :=
  let st1 := freeEntries st st.rend_cache
  { st1 with rend_cache := [] }

/-- Recursive worker for `rend_cache_clean`: walk the client map, freeing and
dropping every entry whose parsed timestamp is strictly below the cutoff and
keeping the rest.  Returns the updated accountant state and the surviving map. -/
def rend_cache_clean_aux (cutoff : Int) (st : RendCacheState) :
    List (String × rend_cache_entry_t) →
      RendCacheState × List (String × rend_cache_entry_t)
  | [] => (st, [])
  | (k, e) :: t =>
    if e.parsed.timestamp < cutoff then
      rend_cache_clean_aux cutoff (rend_cache_entry_free st e) t
    else
      let r := rend_cache_clean_aux cutoff st t
      (r.1, (k, e) :: r.2)

/-- `rend_cache_clean`: age-only sweep, applied to the client map `rend_cache`
with cutoff `now - REND_CACHE_MAX_AGE - REND_CACHE_MAX_SKEW`. -/
def rend_cache_clean (st : RendCacheState) (now : Int) : RendCacheState :=
  let cutoff := now - REND_CACHE_MAX_AGE - REND_CACHE_MAX_SKEW
  let r := rend_cache_clean_aux cutoff st st.rend_cache
  { r.1 with rend_cache := r.2 }

/-- One pass of `rend_cache_clean_v2_descs_as_dir` over the directory map:
evict (freeing, and accumulating the evicted bytes) every entry whose parsed
timestamp is below `cutoff`, whose `last_served` is below `ls_cutoff`, or whose
descriptor id this node is no longer responsible for. -/
def cleanV2DirPass (responsible : Nat → Bool) (cutoff ls_cutoff : Int)
    (st : RendCacheState) (bytes : Nat) :
    List (Nat × rend_cache_entry_t) →
      RendCacheState × Nat × List (Nat × rend_cache_entry_t)
  | [] => (st, bytes, [])
  | (k, e) :: t =>
    if e.parsed.timestamp < cutoff ∨ e.last_served < ls_cutoff ∨
        responsible k = false then
      cleanV2DirPass responsible cutoff ls_cutoff (rend_cache_entry_free st e)
        (bytes + rend_cache_entry_allocation e) t
    else
      let r := cleanV2DirPass responsible cutoff ls_cutoff st bytes t
      (r.1, r.2.1, (k, e) :: r.2.2)

/-- The escalating do/while loop of `rend_cache_clean_v2_descs_as_dir`.  After
each pass the served cutoff advances by `LAST_SERVED_CUTOFF_STEP = 1800`; the
loop stops when the advanced cutoff exceeds `now`, and otherwise repeats while
`bytes_removed < force_remove`.  Besides the final state it returns the list of
the cumulative `bytes_removed` totals observed at the end of each pass, so the
number of passes and the per-pass byte counts are observable. -/
def cleanV2DirLoop (responsible : Nat → Bool) (now cutoff : Int)
    (force_remove : Nat) (st : RendCacheState) (ls_cutoff : Int)
    (bytes : Nat) : RendCacheState × List Nat :=
  let r := cleanV2DirPass responsible cutoff ls_cutoff st bytes
    st.rend_cache_v2_dir
  let st1 : RendCacheState :=
    { rend_cache := r.1.rend_cache
      rend_cache_v2_dir := r.2.2
      rend_cache_total_allocation := r.1.rend_cache_total_allocation
      have_underflowed := r.1.have_underflowed
      have_overflowed := r.1.have_overflowed }
  let bytes1 := r.2.1
  if now < ls_cutoff + 1800 then
    (st1, [bytes1])
  else if bytes1 < force_remove then
    let r2 := cleanV2DirLoop responsible now cutoff force_remove st1
      (ls_cutoff + 1800) bytes1
    (r2.1, bytes1 :: r2.2)
  else
    (st1, [bytes1])
  termination_by (now - ls_cutoff).toNat
  decreasing_by
    simp only [not_lt] at *
    omega

/-- `rend_cache_clean_v2_descs_as_dir`: remove old v2 descriptors and those
this directory is no longer responsible for, escalating the served cutoff
until at least `force_remove` bytes are gone or the cutoff passes `now`. -/
def rend_cache_clean_v2_descs_as_dir (responsible : Nat → Bool)
    (st : RendCacheState) (now : Int) (force_remove : Nat) : RendCacheState :=
  let cutoff := now - REND_CACHE_MAX_AGE - REND_CACHE_MAX_SKEW
  (cleanV2DirLoop responsible now cutoff force_remove st cutoff 0).1

/-- Check of one character of a service id against the base32 alphabet. -/
def base32CharOk (c : Char) : Bool :=
  ('a' ≤ c && c ≤ 'z') || ('2' ≤ c && c ≤ '7')

/-- Modelled from the spec: `rend_valid_service_id` lives in `rendcommon.c`,
which is not part of this source tree; per the spec (§4.C) a valid service id
has exactly 16 characters drawn case-insensitively from the base32 alphabet
`a`–`z`, `2`–`7`. -/
def rend_valid_service_id (q : String) : Bool :=
  q.data.length == 16 && q.data.all (fun c => base32CharOk c.toLower)

/-- Outcome of `rend_cache_lookup_entry`: `0` with the entry, `-EINVAL`, or
`-ENOENT`. -/
inductive LookupOutcome where
  | found (e : rend_cache_entry_t)
  | einval
  | enoent
  deriving DecidableEq

/-- `rend_cache_lookup_entry`: reject malformed service ids with `-EINVAL`;
for version 0 probe nothing (deprecated) so the result is `-ENOENT`; for
version 2 and every other version probe the client map under the lowercased
key `"2" + query`. -/
def rend_cache_lookup_entry (st : RendCacheState) (query : String)
    (version : Int) : LookupOutcome :=
  if rend_valid_service_id query = false then .einval
  else if version = 0 then .enoent
  else
    match strmap_get_lc st.rend_cache ("2" ++ query) with
    | some e => .found e
    | none => .enoent

/-- `rend_cache_lookup_v2_desc_as_dir` (after the external base32 decode of
the requested id): on a hit, hand out the encoded bytes and stamp the entry's
`last_served` with the current `approx_time()`. -/
def rend_cache_lookup_v2_desc_as_dir (st : RendCacheState) (desc_id : Nat)
    (approx_now : Int) : RendCacheState × Option String :=
  match digestmap_get st.rend_cache_v2_dir desc_id with
  | some e =>
    let e2 := { e with last_served := approx_now }
    ({ st with rend_cache_v2_dir := digestmap_set st.rend_cache_v2_dir desc_id e2 },
     some e.desc)
  | none => (st, none)

/-- Store status (`rend_cache_store_status_t`). -/
inductive rend_cache_store_status_t where
  | RCS_NOTDIR
  | RCS_BADDESC
  | RCS_OKAY
  deriving DecidableEq

/-- First `n` characters of a string, as `tor_strndup(s, n)` copies. -/
def strTake (s : String) (n : Nat) : String := ⟨s.data.take n⟩

/-- Embedding of the tail of `rend_cache_store_v2_desc_as_client`.  The steps
before this point (base32 decode of the expected descriptor id, the wire
parse, service-id derivation, the identity checks against the query, and
introduction-point handling) are performed by external collaborators (§6) and
return `RCS_BADDESC` without touching the cache state when they fail; this
model takes their successful outcome — the raw `desc` bytes, the parser's
`encoded_size`, the `parsed` structure, and the derived `service_id` — and
performs the cache-state part: the age and future-skew checks, the
keep-the-newer-incumbent rule under key `"2" + service_id`, and the
allocate-or-replace admission. -/
def rend_cache_store_v2_desc_as_client (st : RendCacheState) (now : Int)
    (desc : String) (encoded_size : Nat)
    (parsed : rend_service_descriptor_t) (service_id : String) :
    RendCacheState × rend_cache_store_status_t × Option rend_cache_entry_t :=
  if parsed.timestamp < now - REND_CACHE_MAX_AGE - REND_CACHE_MAX_SKEW then
    (st, .RCS_BADDESC, none)
  else if now + REND_CACHE_MAX_SKEW < parsed.timestamp then
    (st, .RCS_BADDESC, none)
  else
    let key := "2" ++ service_id
    match strmap_get_lc st.rend_cache key with
    | some e =>
      if parsed.timestamp ≤ e.parsed.timestamp then
        (st, .RCS_OKAY, some e)
      else
        let st1 := rend_cache_decrement_allocation st
          (rend_cache_entry_allocation e)
        let e2 : rend_cache_entry_t :=
          { desc := strTake desc encoded_size
            len := encoded_size
            parsed := parsed
            last_served := e.last_served }
        let st2 := { st1 with rend_cache := strmap_set_lc st1.rend_cache key e2 }
        let st3 := rend_cache_increment_allocation st2
          (rend_cache_entry_allocation e2)
        (st3, .RCS_OKAY, some e2)
    | none =>
      let e2 : rend_cache_entry_t :=
        { desc := strTake desc encoded_size
          len := encoded_size
          parsed := parsed
          last_served := 0 }
      let st2 := { st with rend_cache := strmap_set_lc st.rend_cache key e2 }
      let st3 := rend_cache_increment_allocation st2
        (rend_cache_entry_allocation e2)
      (st3, .RCS_OKAY, some e2)

/-- What the external parser yields for one descriptor (with the fields the
directory store path uses): the parsed structure and the 20-byte `desc_id`
digest (modelled as a `Nat`).  The parser's `encoded_size` is the byte length
of the descriptor, and its `next_desc` cursor points right after it, so both
are determined by the chunk itself in the chunked buffer model below. -/
structure ParseOutput where
  parsed : rend_service_descriptor_t
  desc_id : Nat
  deriving DecidableEq

/-- The literal keyword a following descriptor must begin with for the batch
loop to continue. -/
def REND_KEYWORD : String := "rendezvous-service-descriptor "

/-- Concatenation of the remaining chunks of a batch buffer: the C string a
cursor into the buffer denotes. -/
def strJoin : List String → String
  | [] => ""
  | s :: t => s ++ strJoin t

/-- `strcmpstart(s, pre) == 0`: does `s` begin with `pre`? -/
def strCmpStartOk (s pre : String) : Bool :=
  pre.data.isPrefixOf s.data

/-- Admission of one parsed descriptor inside `rend_cache_store_v2_desc_as_dir`:
the responsibility, age and future-skew gates, the dominance check against the
incumbent, the identity-duplicate check — which, as in the source, compares the
incumbent's bytes against `desc`, the start of the WHOLE batch buffer, not
against the current descriptor — and finally the allocate-or-replace admission.
`cur` is the current chunk and `rest` the chunks after it, so the C cursor
`current_desc` denotes `strJoin (cur :: rest)`.  Returns the new state and the
updated `number_stored`. -/
def storeV2DirOne (responsible : Nat → Bool) (now approx_now : Int)
    (desc : String) (cur : String) (rest : List String) (p : ParseOutput)
    (st : RendCacheState) (n_stored : Nat) : RendCacheState × Nat :=
  if responsible p.desc_id = false then (st, n_stored)
  else if p.parsed.timestamp < now - REND_CACHE_MAX_AGE - REND_CACHE_MAX_SKEW
    then (st, n_stored)
  else if now + REND_CACHE_MAX_SKEW < p.parsed.timestamp then (st, n_stored)
  else
    match digestmap_get st.rend_cache_v2_dir p.desc_id with
    | some e =>
      if p.parsed.timestamp < e.parsed.timestamp then (st, n_stored)
      else if desc = e.desc then (st, n_stored)
      else
        let st1 := rend_cache_decrement_allocation st
          (rend_cache_entry_allocation e)
        let e2 : rend_cache_entry_t :=
          { desc := strTake (strJoin (cur :: rest)) cur.data.length
            len := cur.data.length
            parsed := p.parsed
            last_served := e.last_served }
        let st2 := { st1 with
          rend_cache_v2_dir := digestmap_set st1.rend_cache_v2_dir p.desc_id e2 }
        let st3 := rend_cache_increment_allocation st2
          (rend_cache_entry_allocation e2)
        (st3, n_stored + 1)
    | none =>
      let e2 : rend_cache_entry_t :=
        { desc := strTake (strJoin (cur :: rest)) cur.data.length
          len := cur.data.length
          parsed := p.parsed
          last_served := approx_now - 3600 }
      let st2 := { st with
        rend_cache_v2_dir := digestmap_set st.rend_cache_v2_dir p.desc_id e2 }
      let st3 := rend_cache_increment_allocation st2
        (rend_cache_entry_allocation e2)
      (st3, n_stored + 1)

/-- The batch loop of `rend_cache_store_v2_desc_as_dir`: attempt to parse the
current chunk (stopping when the parser fails), admit it via `storeV2DirOne`,
and continue iff the remaining buffer begins with the descriptor keyword.
Returns the final state, `number_parsed` and `number_stored`. -/
def storeV2DirLoop (parse : String → Option ParseOutput)
    (responsible : Nat → Bool) (now approx_now : Int) (desc : String)
    (st : RendCacheState) (n_parsed n_stored : Nat) :
    List String → RendCacheState × Nat × Nat
  | [] => (st, n_parsed, n_stored)
  | cur :: rest =>
    match parse cur with
    | none => (st, n_parsed, n_stored)
    | some p =>
      let r := storeV2DirOne responsible now approx_now desc cur rest p st
        n_stored
      if strCmpStartOk (strJoin rest) REND_KEYWORD then
        storeV2DirLoop parse responsible now approx_now desc r.1
          (n_parsed + 1) r.2 rest
      else
        (r.1, n_parsed + 1, r.2)

/-- `rend_cache_store_v2_desc_as_dir`: refuse everything with `RCS_NOTDIR`
when not currently acting as a hidden-service directory; otherwise run the
batch loop over the chunked buffer (whose start, the C `desc` pointer, is the
concatenation of all chunks) and return `RCS_BADDESC` exactly when no
descriptor parsed, `RCS_OKAY` otherwise. -/
def rend_cache_store_v2_desc_as_dir (parse : String → Option ParseOutput)
    (acting_as_dir : Bool) (responsible : Nat → Bool) (now approx_now : Int)
    (st : RendCacheState) (chunks : List String) :
    RendCacheState × rend_cache_store_status_t :=
  if acting_as_dir = false then (st, .RCS_NOTDIR)
  else
    let r := storeV2DirLoop parse responsible now approx_now (strJoin chunks)
      st 0 0 chunks
    if r.2.1 = 0 then (r.1, .RCS_BADDESC) else (r.1, .RCS_OKAY)

/-- Sum of the per-entry accountant charges over all bindings of a map. -/
def sumCharges {α : Type} : List (α × rend_cache_entry_t) → Nat
  | [] => 0
  | (_, e) :: t => rend_cache_entry_allocation e + sumCharges t

/-- Sum of the charges of every entry reachable from either index. -/
def totalCharges (st : RendCacheState) : Nat :=
  sumCharges st.rend_cache + sumCharges st.rend_cache_v2_dir

/-- Neither saturation warning has fired yet. -/
def flagsUnset (st : RendCacheState) : Prop :=
  st.have_overflowed = false ∧ st.have_underflowed = false

/-- The accounting invariant: so long as neither saturation warning has
fired, the accountant equals the summed charges of every reachable entry. -/
def AccountInv (st : RendCacheState) : Prop :=
  flagsUnset st → st.rend_cache_total_allocation = totalCharges st

/-- One operation of the module's public interface, with the inputs and
external collaborators it consumes. -/
inductive CacheOp where
  | storeDir (parse : String → Option ParseOutput) (acting_as_dir : Bool)
      (responsible : Nat → Bool) (now approx_now : Int) (chunks : List String)
  | storeClient (now : Int) (desc : String) (encoded_size : Nat)
      (parsed : rend_service_descriptor_t) (service_id : String)
  | lookupClient (query : String) (version : Int)
  | lookupDir (desc_id : Nat) (approx_now : Int)
  | clean (now : Int)
  | cleanDir (responsible : Nat → Bool) (now : Int) (force_remove : Nat)
  | purge
  | freeAll

/-- State effect of one operation. -/
def applyOp (op : CacheOp) (st : RendCacheState) : RendCacheState :=
  match op with
  | .storeDir p a r n an ch => (rend_cache_store_v2_desc_as_dir p a r n an st ch).1
  | .storeClient n d es pa sid =>
    (rend_cache_store_v2_desc_as_client st n d es pa sid).1
  | .lookupClient _ _ => st
  | .lookupDir id an => (rend_cache_lookup_v2_desc_as_dir st id an).1
  | .clean n => rend_cache_clean st n
  | .cleanDir r n f => rend_cache_clean_v2_descs_as_dir r st n f
  | .purge => rend_cache_purge st
  | .freeAll => rend_cache_free_all st

/-- State after a whole sequence of operations. -/
def applyOps (ops : List CacheOp) (st : RendCacheState) : RendCacheState :=
  ops.foldl (fun s op => applyOp op s) st

/-- First demo descriptor text for concrete runs. -/
def demoDescA : String := "rendezvous-service-descriptor A"

/-- Second demo descriptor text for concrete runs. -/
def demoDescB : String := "rendezvous-service-descriptor B"

/-- A concrete deterministic parser for concrete runs: it recognises the two
demo descriptors (with adjustable timestamps) and fails on anything else. -/
def demoParse (tsA tsB : Int) : String → Option ParseOutput := fun s =>
  if s = demoDescA then
    some { parsed := { timestamp := tsA, pk := 1 }, desc_id := 1 }
  else if s = demoDescB then
    some { parsed := { timestamp := tsB, pk := 2 }, desc_id := 2 }
  else none

/-- A concrete populated cache state for concrete runs: one client entry under
key `"2bbbbbbbbbbbbbbbb"` and one directory entry under digest `2`. -/
def demoState : RendCacheState :=
  { rend_cache := [("2bbbbbbbbbbbbbbbb",
      { desc := "old", len := 3,
        parsed := { timestamp := 5, pk := 9 }, last_served := 77 })]
    rend_cache_v2_dir := [(2,
      { desc := "olddesc", len := 7,
        parsed := { timestamp := 5, pk := 2 }, last_served := 42 })]
    rend_cache_total_allocation := 500
    have_underflowed := false
    have_overflowed := false }

/-! ## Helper lemmas -/

theorem string_ext {s₁ s₂ : String} (h : s₁.data = s₂.data) : s₁ = s₂ := by
  cases s₁; cases s₂; simp_all

theorem strLower_append (a b : String) :
    strLower (a ++ b) = strLower a ++ strLower b := by
  apply string_ext
  simp [strLower, String.data_append]

theorem mapGet_mapSet_self {α β : Type} [DecidableEq α] (k : α) (v : β) :
    ∀ m : List (α × β), mapGet k (mapSet k v m) = some v
  | [] => by simp [mapSet, mapGet]
  | (k', v') :: t => by
    by_cases h : k' = k <;>
      simp [mapSet, mapGet, h, mapGet_mapSet_self k v t]

theorem inc_rend_cache (st : RendCacheState) (n : Nat) :
    (rend_cache_increment_allocation st n).rend_cache = st.rend_cache := by
  unfold rend_cache_increment_allocation; split <;> rfl

theorem inc_v2_dir (st : RendCacheState) (n : Nat) :
    (rend_cache_increment_allocation st n).rend_cache_v2_dir =
      st.rend_cache_v2_dir := by
  unfold rend_cache_increment_allocation; split <;> rfl

theorem inc_under (st : RendCacheState) (n : Nat) :
    (rend_cache_increment_allocation st n).have_underflowed =
      st.have_underflowed := by
  unfold rend_cache_increment_allocation; split <;> rfl

theorem inc_over_mono (st : RendCacheState) (n : Nat)
    (h : (rend_cache_increment_allocation st n).have_overflowed = false) :
    st.have_overflowed = false := by
  unfold rend_cache_increment_allocation at h
  by_cases hc : st.rend_cache_total_allocation ≤ SIZE_MAX - n
  · rw [if_pos hc] at h; exact h
  · rw [if_neg hc] at h; exact absurd h (by simp)

theorem inc_exact (st : RendCacheState) (n : Nat)
    (h : (rend_cache_increment_allocation st n).have_overflowed = false) :
    (rend_cache_increment_allocation st n).rend_cache_total_allocation =
      st.rend_cache_total_allocation + n := by
  unfold rend_cache_increment_allocation at h ⊢
  by_cases hc : st.rend_cache_total_allocation ≤ SIZE_MAX - n
  · rw [if_pos hc]
  · rw [if_neg hc] at h; exact absurd h (by simp)

theorem dec_rend_cache (st : RendCacheState) (n : Nat) :
    (rend_cache_decrement_allocation st n).rend_cache = st.rend_cache := by
  unfold rend_cache_decrement_allocation; split <;> rfl

theorem dec_v2_dir (st : RendCacheState) (n : Nat) :
    (rend_cache_decrement_allocation st n).rend_cache_v2_dir =
      st.rend_cache_v2_dir := by
  unfold rend_cache_decrement_allocation; split <;> rfl

theorem dec_over (st : RendCacheState) (n : Nat) :
    (rend_cache_decrement_allocation st n).have_overflowed =
      st.have_overflowed := by
  unfold rend_cache_decrement_allocation; split <;> rfl

theorem dec_under_mono (st : RendCacheState) (n : Nat)
    (h : (rend_cache_decrement_allocation st n).have_underflowed = false) :
    st.have_underflowed = false := by
  unfold rend_cache_decrement_allocation at h
  by_cases hc : n ≤ st.rend_cache_total_allocation
  · rw [if_pos hc] at h; exact h
  · rw [if_neg hc] at h; exact absurd h (by simp)

theorem dec_exact (st : RendCacheState) (n : Nat)
    (h : (rend_cache_decrement_allocation st n).have_underflowed = false) :
    (rend_cache_decrement_allocation st n).rend_cache_total_allocation + n =
      st.rend_cache_total_allocation := by
  unfold rend_cache_decrement_allocation at h ⊢
  by_cases hc : n ≤ st.rend_cache_total_allocation
  · rw [if_pos hc]
    show st.rend_cache_total_allocation - n + n = st.rend_cache_total_allocation
    omega
  · rw [if_neg hc] at h; exact absurd h (by simp)

/-! ## Claim theorems -/

/-- Claim C8: the accountant saturates instead of wrapping.  For any `n`
representable in `size_t`, `add(n)` either increases the total by exactly `n`
(leaving the overflow warning flag alone) or, when `total + n` would exceed
`SIZE_MAX`, clamps the total to `SIZE_MAX` and records the one-shot warning;
`sub(n)` either decreases the total by exactly `n` (leaving the underflow flag
alone) or, when `n > total`, clamps the total to `0` and records the warning;
starting from a representable total both results stay representable, and the
counter is a natural number, never negative. -/
theorem accountant_saturation (st : RendCacheState) (n : Nat)
    (hn : n ≤ SIZE_MAX) :
    ((st.rend_cache_total_allocation + n ≤ SIZE_MAX ∧
        (rend_cache_increment_allocation st n).rend_cache_total_allocation =
          st.rend_cache_total_allocation + n ∧
        (rend_cache_increment_allocation st n).have_overflowed =
          st.have_overflowed) ∨
      (SIZE_MAX < st.rend_cache_total_allocation + n ∧
        (rend_cache_increment_allocation st n).rend_cache_total_allocation =
          SIZE_MAX ∧
        (rend_cache_increment_allocation st n).have_overflowed = true)) ∧
    ((n ≤ st.rend_cache_total_allocation ∧
        (rend_cache_decrement_allocation st n).rend_cache_total_allocation + n =
          st.rend_cache_total_allocation ∧
        (rend_cache_decrement_allocation st n).have_underflowed =
          st.have_underflowed) ∨
      (st.rend_cache_total_allocation < n ∧
        (rend_cache_decrement_allocation st n).rend_cache_total_allocation = 0 ∧
        (rend_cache_decrement_allocation st n).have_underflowed = true)) ∧
    (st.rend_cache_total_allocation ≤ SIZE_MAX →
      (rend_cache_increment_allocation st n).rend_cache_total_allocation ≤
        SIZE_MAX ∧
      (rend_cache_decrement_allocation st n).rend_cache_total_allocation ≤
        SIZE_MAX) := by
  refine ⟨?_, ?_, ?_⟩
  · by_cases h : st.rend_cache_total_allocation ≤ SIZE_MAX - n
    · left
      unfold rend_cache_increment_allocation
      rw [if_pos h]
      exact ⟨by omega, rfl, rfl⟩
    · right
      unfold rend_cache_increment_allocation
      rw [if_neg h]
      exact ⟨by omega, rfl, rfl⟩
  · by_cases h : n ≤ st.rend_cache_total_allocation
    · left
      unfold rend_cache_decrement_allocation
      rw [if_pos h]
      refine ⟨h, ?_, rfl⟩
      show st.rend_cache_total_allocation - n + n = st.rend_cache_total_allocation
      omega
    · right
      unfold rend_cache_decrement_allocation
      rw [if_neg h]
      exact ⟨by omega, rfl, rfl⟩
  · intro hle
    constructor
    · unfold rend_cache_increment_allocation
      by_cases h : st.rend_cache_total_allocation ≤ SIZE_MAX - n
      · rw [if_pos h]
        show st.rend_cache_total_allocation + n ≤ SIZE_MAX
        omega
      · rw [if_neg h]
    · unfold rend_cache_decrement_allocation
      by_cases h : n ≤ st.rend_cache_total_allocation
      · rw [if_pos h]
        show st.rend_cache_total_allocation - n ≤ SIZE_MAX
        omega
      · rw [if_neg h]
        show (0 : Nat) ≤ SIZE_MAX
        omega

/-- Concrete instantiation of `accountant_saturation`. -/
theorem accountant_saturation_witness :
    (3 : Nat) ≤ SIZE_MAX ∧
    (((initState.rend_cache_total_allocation + 3 ≤ SIZE_MAX ∧
        (rend_cache_increment_allocation initState 3).rend_cache_total_allocation =
          initState.rend_cache_total_allocation + 3 ∧
        (rend_cache_increment_allocation initState 3).have_overflowed =
          initState.have_overflowed) ∨
      (SIZE_MAX < initState.rend_cache_total_allocation + 3 ∧
        (rend_cache_increment_allocation initState 3).rend_cache_total_allocation =
          SIZE_MAX ∧
        (rend_cache_increment_allocation initState 3).have_overflowed = true)) ∧
     ((3 ≤ initState.rend_cache_total_allocation ∧
        (rend_cache_decrement_allocation initState 3).rend_cache_total_allocation + 3 =
          initState.rend_cache_total_allocation ∧
        (rend_cache_decrement_allocation initState 3).have_underflowed =
          initState.have_underflowed) ∨
      (initState.rend_cache_total_allocation < 3 ∧
        (rend_cache_decrement_allocation initState 3).rend_cache_total_allocation = 0 ∧
        (rend_cache_decrement_allocation initState 3).have_underflowed = true)) ∧
     (initState.rend_cache_total_allocation ≤ SIZE_MAX →
      (rend_cache_increment_allocation initState 3).rend_cache_total_allocation ≤
        SIZE_MAX ∧
      (rend_cache_decrement_allocation initState 3).rend_cache_total_allocation ≤
        SIZE_MAX)) :=
  ⟨by decide, accountant_saturation initState 3 (by decide)⟩

theorem rend_valid_service_id_lower_congr (q1 q2 : String)
    (h : strLower q1 = strLower q2) :
    rend_valid_service_id q1 = rend_valid_service_id q2 := by
  have hd : q1.data.map Char.toLower = q2.data.map Char.toLower :=
    congrArg String.data h
  have hlen : q1.data.length = q2.data.length := by
    have := congrArg List.length hd
    simpa using this
  have hall : q1.data.all (fun c => base32CharOk c.toLower) =
      q2.data.all (fun c => base32CharOk c.toLower) := by
    have h1 : (q1.data.map Char.toLower).all base32CharOk =
        (q2.data.map Char.toLower).all base32CharOk := by rw [hd]
    rw [List.all_map, List.all_map] at h1
    exact h1
  unfold rend_valid_service_id
  rw [hlen, hall]

/-- Claim C9: the client lookup contract.  For every query and version the
lookup returns `-EINVAL` when the query is not a valid 16-character base32
service id; for a valid query with version 0 it returns `-ENOENT` without
probing the index (the result does not depend on the cache state at all);
every version other than 0 behaves exactly like version 2, probing under key
`"2" + query` case-insensitively, so two lookups whose queries agree up to
letter case return the same result. -/
theorem rend_cache_lookup_entry_contract :
    (∀ (st : RendCacheState) (q : String) (v : Int),
      rend_valid_service_id q = false →
      rend_cache_lookup_entry st q v = .einval) ∧
    (∀ (st st' : RendCacheState) (q : String),
      rend_valid_service_id q = true →
      rend_cache_lookup_entry st q 0 = .enoent ∧
      rend_cache_lookup_entry st q 0 = rend_cache_lookup_entry st' q 0) ∧
    (∀ (st : RendCacheState) (q : String) (v : Int), v ≠ 0 →
      rend_cache_lookup_entry st q v = rend_cache_lookup_entry st q 2) ∧
    (∀ (st : RendCacheState) (q1 q2 : String) (v : Int),
      strLower q1 = strLower q2 →
      rend_cache_lookup_entry st q1 v = rend_cache_lookup_entry st q2 v) := by
  refine ⟨?_, ?_, ?_, ?_⟩
  · intro st q v hq
    unfold rend_cache_lookup_entry
    rw [hq]
    rfl
  · intro st st' q hq
    unfold rend_cache_lookup_entry
    rw [hq]
    exact ⟨rfl, rfl⟩
  · intro st q v hv
    unfold rend_cache_lookup_entry
    by_cases hq : rend_valid_service_id q = false
    · simp [hq]
    · simp [hq, hv]
  · intro st q1 q2 v h
    have hv : rend_valid_service_id q1 = rend_valid_service_id q2 :=
      rend_valid_service_id_lower_congr q1 q2 h
    have hkey : strLower ("2" ++ q1) = strLower ("2" ++ q2) := by
      rw [strLower_append, strLower_append, h]
    unfold rend_cache_lookup_entry strmap_get_lc
    rw [hv, hkey]

/-- Concrete instantiation of `rend_cache_lookup_entry_contract`. -/
theorem rend_cache_lookup_entry_contract_witness :
    rend_valid_service_id "!!bad!!query!!xx" = false ∧
    rend_cache_lookup_entry initState "!!bad!!query!!xx" 2 = .einval ∧
    rend_valid_service_id "aaaaaaaaaaaaaaaa" = true ∧
    rend_cache_lookup_entry initState "aaaaaaaaaaaaaaaa" 0 = .enoent ∧
    rend_cache_lookup_entry initState "ABCDEFGHIJKLMNOP" 2 =
      rend_cache_lookup_entry initState "abcdefghijklmnop" 2 := by
  refine ⟨by decide, ?_, by decide, ?_, ?_⟩
  · exact rend_cache_lookup_entry_contract.1 initState "!!bad!!query!!xx" 2
      (by decide)
  · exact (rend_cache_lookup_entry_contract.2.1 initState initState
      "aaaaaaaaaaaaaaaa" (by decide)).1
  · exact rend_cache_lookup_entry_contract.2.2.2 initState "ABCDEFGHIJKLMNOP"
      "abcdefghijklmnop" 2 (by decide)

/-- Claim C2, counterexample: a descriptor whose parsed timestamp equals
exactly `now - REND_CACHE_MAX_AGE - REND_CACHE_MAX_SKEW` is NOT rejected as
too old — the age check uses a strict less-than, so the client store path
accepts it, returns `RCS_OKAY` and stores an entry. -/
theorem timestamp_lower_boundary_counterexample :
    (-259200 : Int) =
      0 - REND_CACHE_MAX_AGE - REND_CACHE_MAX_SKEW ∧
    (rend_cache_store_v2_desc_as_client initState 0 "x" 1
        { timestamp := -259200, pk := 1 } "aaaaaaaaaaaaaaaa").2.1 =
      .RCS_OKAY ∧
    (rend_cache_store_v2_desc_as_client initState 0 "x" 1
        { timestamp := -259200, pk := 1 } "aaaaaaaaaaaaaaaa").1.rend_cache ≠
      [] := by
  decide

/-- Claim C2 (amended): on both store paths the age bound is strict — a
descriptor whose timestamp equals `now - MAX_AGE - MAX_SKEW` is accepted, one
whose timestamp is strictly below that is rejected as too old; a timestamp of
`now + MAX_SKEW` is accepted and `now + MAX_SKEW + 1` is rejected as too far
in the future.  On the directory path, for a responsible id with an empty
slot, acceptance admits the descriptor (`number_stored` increments) and
rejection leaves the state and `number_stored` untouched; on the client path
rejection returns `RCS_BADDESC` without touching the state and acceptance
returns `RCS_OKAY`. -/
theorem store_timestamp_boundaries (responsible : Nat → Bool)
    (now approx_now : Int) (desc cur : String) (rest : List String)
    (p : ParseOutput) (st : RendCacheState) (n_stored : Nat)
    (st2 : RendCacheState) (desc2 : String) (n2 : Nat)
    (parsed : rend_service_descriptor_t) (sid : String)
    (hresp : responsible p.desc_id = true)
    (hget : digestmap_get st.rend_cache_v2_dir p.desc_id = none) :
    (p.parsed.timestamp = now - REND_CACHE_MAX_AGE - REND_CACHE_MAX_SKEW →
      (storeV2DirOne responsible now approx_now desc cur rest p st
        n_stored).2 = n_stored + 1) ∧
    (p.parsed.timestamp < now - REND_CACHE_MAX_AGE - REND_CACHE_MAX_SKEW →
      storeV2DirOne responsible now approx_now desc cur rest p st n_stored =
        (st, n_stored)) ∧
    (p.parsed.timestamp = now + REND_CACHE_MAX_SKEW →
      (storeV2DirOne responsible now approx_now desc cur rest p st
        n_stored).2 = n_stored + 1) ∧
    (p.parsed.timestamp = now + REND_CACHE_MAX_SKEW + 1 →
      storeV2DirOne responsible now approx_now desc cur rest p st n_stored =
        (st, n_stored)) ∧
    (parsed.timestamp = now - REND_CACHE_MAX_AGE - REND_CACHE_MAX_SKEW →
      (rend_cache_store_v2_desc_as_client st2 now desc2 n2 parsed sid).2.1 =
        .RCS_OKAY) ∧
    (parsed.timestamp < now - REND_CACHE_MAX_AGE - REND_CACHE_MAX_SKEW →
      rend_cache_store_v2_desc_as_client st2 now desc2 n2 parsed sid =
        (st2, .RCS_BADDESC, none)) ∧
    (parsed.timestamp = now + REND_CACHE_MAX_SKEW →
      (rend_cache_store_v2_desc_as_client st2 now desc2 n2 parsed sid).2.1 =
        .RCS_OKAY) ∧
    (parsed.timestamp = now + REND_CACHE_MAX_SKEW + 1 →
      rend_cache_store_v2_desc_as_client st2 now desc2 n2 parsed sid =
        (st2, .RCS_BADDESC, none)) := by
  have hMA : REND_CACHE_MAX_AGE = 172800 := by norm_num [REND_CACHE_MAX_AGE]
  have hMS : REND_CACHE_MAX_SKEW = 86400 := by norm_num [REND_CACHE_MAX_SKEW]
  refine ⟨?_, ?_, ?_, ?_, ?_, ?_, ?_, ?_⟩
  · intro ht
    unfold storeV2DirOne
    rw [if_neg (by simp [hresp]), if_neg (by omega), if_neg (by omega), hget]
  · intro ht
    unfold storeV2DirOne
    rw [if_neg (by simp [hresp]), if_pos (by omega)]
  · intro ht
    unfold storeV2DirOne
    rw [if_neg (by simp [hresp]), if_neg (by omega), if_neg (by omega), hget]
  · intro ht
    unfold storeV2DirOne
    rw [if_neg (by simp [hresp]), if_neg (by omega), if_pos (by omega)]
  · intro ht
    unfold rend_cache_store_v2_desc_as_client
    rw [if_neg (by omega), if_neg (by omega)]
    cases hgc : strmap_get_lc st2.rend_cache ("2" ++ sid) with
    | some e =>
      by_cases hcmp : parsed.timestamp ≤ e.parsed.timestamp
      · simp [hgc, hcmp]
      · simp [hgc, hcmp]
    | none => simp [hgc]
  · intro ht
    unfold rend_cache_store_v2_desc_as_client
    rw [if_pos (by omega)]
  · intro ht
    unfold rend_cache_store_v2_desc_as_client
    rw [if_neg (by omega), if_neg (by omega)]
    cases hgc : strmap_get_lc st2.rend_cache ("2" ++ sid) with
    | some e =>
      by_cases hcmp : parsed.timestamp ≤ e.parsed.timestamp
      · simp [hgc, hcmp]
      · simp [hgc, hcmp]
    | none => simp [hgc]
  · intro ht
    unfold rend_cache_store_v2_desc_as_client
    rw [if_neg (by omega), if_pos (by omega)]

/-- Concrete instantiation of `store_timestamp_boundaries`. -/
theorem store_timestamp_boundaries_witness :
    (storeV2DirOne (fun _ => true) 0 0 "x" "x" []
      { parsed := { timestamp := -259200, pk := 1 }, desc_id := 1 }
      initState 0).2 = 0 + 1 ∧
    (rend_cache_store_v2_desc_as_client initState 0 "x" 1
      { timestamp := 86401, pk := 1 } "aaaaaaaaaaaaaaaa") =
      (initState, .RCS_BADDESC, none) := by
  constructor
  · exact (store_timestamp_boundaries (fun _ => true) 0 0 "x" "x" []
      { parsed := { timestamp := -259200, pk := 1 }, desc_id := 1 }
      initState 0 initState "x" 1 { timestamp := 86401, pk := 1 }
      "aaaaaaaaaaaaaaaa" (by decide) (by decide)).1 (by decide)
  · exact (store_timestamp_boundaries (fun _ => true) 0 0 "x" "x" []
      { parsed := { timestamp := -259200, pk := 1 }, desc_id := 1 }
      initState 0 initState "x" 1 { timestamp := 86401, pk := 1 }
      "aaaaaaaaaaaaaaaa" (by decide) (by decide)).2.2.2.2.2.2.2 (by decide)

/-- Claim C10: `last_served` is written only when a fresh directory entry is
allocated into an empty slot, where it is set to `approx_time() - 3600`; an
in-place directory replacement preserves the incumbent's `last_served`
unchanged; and the client store path never assigns `last_served` — a fresh
client entry keeps the zero from the zeroed allocation and a client
replacement preserves the incumbent's value. -/
theorem last_served_frame (responsible : Nat → Bool) (now approx_now : Int)
    (desc cur : String) (rest : List String) (p1 p2 : ParseOutput)
    (st : RendCacheState) (n_stored : Nat) (ed : rend_cache_entry_t)
    (st2 : RendCacheState) (desc2 : String) (n2 : Nat)
    (parsed parsed2 : rend_service_descriptor_t) (sid sid2 : String)
    (ec : rend_cache_entry_t)
    (hresp1 : responsible p1.desc_id = true)
    (hw1a : ¬ p1.parsed.timestamp <
      now - REND_CACHE_MAX_AGE - REND_CACHE_MAX_SKEW)
    (hw1b : ¬ now + REND_CACHE_MAX_SKEW < p1.parsed.timestamp)
    (hget1 : digestmap_get st.rend_cache_v2_dir p1.desc_id = none)
    (hresp2 : responsible p2.desc_id = true)
    (hw2a : ¬ p2.parsed.timestamp <
      now - REND_CACHE_MAX_AGE - REND_CACHE_MAX_SKEW)
    (hw2b : ¬ now + REND_CACHE_MAX_SKEW < p2.parsed.timestamp)
    (hget2 : digestmap_get st.rend_cache_v2_dir p2.desc_id = some ed)
    (hdom : ¬ p2.parsed.timestamp < ed.parsed.timestamp)
    (hne : desc ≠ ed.desc)
    (hwc1a : ¬ parsed.timestamp <
      now - REND_CACHE_MAX_AGE - REND_CACHE_MAX_SKEW)
    (hwc1b : ¬ now + REND_CACHE_MAX_SKEW < parsed.timestamp)
    (hgc1 : strmap_get_lc st2.rend_cache ("2" ++ sid) = none)
    (hwc2a : ¬ parsed2.timestamp <
      now - REND_CACHE_MAX_AGE - REND_CACHE_MAX_SKEW)
    (hwc2b : ¬ now + REND_CACHE_MAX_SKEW < parsed2.timestamp)
    (hgc2 : strmap_get_lc st2.rend_cache ("2" ++ sid2) = some ec)
    (hcl : ¬ parsed2.timestamp ≤ ec.parsed.timestamp) :
    digestmap_get
        (storeV2DirOne responsible now approx_now desc cur rest p1 st
          n_stored).1.rend_cache_v2_dir p1.desc_id =
      some { desc := strTake (strJoin (cur :: rest)) cur.data.length
             len := cur.data.length
             parsed := p1.parsed
             last_served := approx_now - 3600 } ∧
    digestmap_get
        (storeV2DirOne responsible now approx_now desc cur rest p2 st
          n_stored).1.rend_cache_v2_dir p2.desc_id =
      some { desc := strTake (strJoin (cur :: rest)) cur.data.length
             len := cur.data.length
             parsed := p2.parsed
             last_served := ed.last_served } ∧
    strmap_get_lc
        (rend_cache_store_v2_desc_as_client st2 now desc2 n2 parsed
          sid).1.rend_cache ("2" ++ sid) =
      some { desc := strTake desc2 n2
             len := n2
             parsed := parsed
             last_served := 0 } ∧
    strmap_get_lc
        (rend_cache_store_v2_desc_as_client st2 now desc2 n2 parsed2
          sid2).1.rend_cache ("2" ++ sid2) =
      some { desc := strTake desc2 n2
             len := n2
             parsed := parsed2
             last_served := ec.last_served } := by
  refine ⟨?_, ?_, ?_, ?_⟩
  · unfold storeV2DirOne
    rw [if_neg (by simp [hresp1]), if_neg hw1a, if_neg hw1b, hget1]
    simp [digestmap_get, digestmap_set, inc_v2_dir, mapGet_mapSet_self]
  · unfold storeV2DirOne
    rw [if_neg (by simp [hresp2]), if_neg hw2a, if_neg hw2b, hget2]
    simp [hdom, hne, digestmap_get, digestmap_set, inc_v2_dir,
      dec_v2_dir, mapGet_mapSet_self]
  · unfold rend_cache_store_v2_desc_as_client
    rw [if_neg hwc1a, if_neg hwc1b]
    simp only [hgc1]
    simp [strmap_get_lc, strmap_set_lc, inc_rend_cache, mapGet_mapSet_self]
  · unfold rend_cache_store_v2_desc_as_client
    rw [if_neg hwc2a, if_neg hwc2b]
    simp only [hgc2]
    rw [if_neg hcl]
    simp [strmap_get_lc, strmap_set_lc, inc_rend_cache, dec_rend_cache,
      mapGet_mapSet_self]

/-- Concrete instantiation of `last_served_frame`. -/
theorem last_served_frame_witness :
    digestmap_get
        (storeV2DirOne (fun _ => true) 0 9999 "x" "x" []
          { parsed := { timestamp := 0, pk := 1 }, desc_id := 1 }
          demoState 0).1.rend_cache_v2_dir 1 =
      some { desc := strTake (strJoin ["x"]) "x".data.length
             len := "x".data.length
             parsed := { timestamp := 0, pk := 1 }
             last_served := 9999 - 3600 } ∧
    digestmap_get
        (storeV2DirOne (fun _ => true) 0 9999 "x" "x" []
          { parsed := { timestamp := 6, pk := 2 }, desc_id := 2 }
          demoState 0).1.rend_cache_v2_dir 2 =
      some { desc := strTake (strJoin ["x"]) "x".data.length
             len := "x".data.length
             parsed := { timestamp := 6, pk := 2 }
             last_served := 42 } ∧
    strmap_get_lc
        (rend_cache_store_v2_desc_as_client demoState 0 "dd" 2
          { timestamp := 0, pk := 4 }
          "aaaaaaaaaaaaaaaa").1.rend_cache ("2" ++ "aaaaaaaaaaaaaaaa") =
      some { desc := strTake "dd" 2
             len := 2
             parsed := { timestamp := 0, pk := 4 }
             last_served := 0 } ∧
    strmap_get_lc
        (rend_cache_store_v2_desc_as_client demoState 0 "dd" 2
          { timestamp := 6, pk := 9 }
          "bbbbbbbbbbbbbbbb").1.rend_cache ("2" ++ "bbbbbbbbbbbbbbbb") =
      some { desc := strTake "dd" 2
             len := 2
             parsed := { timestamp := 6, pk := 9 }
             last_served := 77 } :=
  last_served_frame (fun _ => true) 0 9999 "x" "x" []
    { parsed := { timestamp := 0, pk := 1 }, desc_id := 1 }
    { parsed := { timestamp := 6, pk := 2 }, desc_id := 2 }
    demoState 0
    { desc := "olddesc", len := 7, parsed := { timestamp := 5, pk := 2 },
      last_served := 42 }
    demoState "dd" 2 { timestamp := 0, pk := 4 } { timestamp := 6, pk := 9 }
    "aaaaaaaaaaaaaaaa" "bbbbbbbbbbbbbbbb"
    { desc := "old", len := 3, parsed := { timestamp := 5, pk := 9 },
      last_served := 77 }
    (by decide) (by decide) (by decide) (by decide) (by decide) (by decide)
    (by decide) (by decide) (by decide) (by decide) (by decide) (by decide)
    (by decide) (by decide) (by decide) (by decide) (by decide)

theorem strJoin_single (s : String) : strJoin [s] = s := by
  show s ++ "" = s
  cases s
  simp [String.append]

theorem strTake_strJoin_cons (cur : String) (rest : List String) :
    strTake (strJoin (cur :: rest)) cur.data.length = cur := by
  apply string_ext
  show ((cur ++ strJoin rest).data.take cur.data.length) = cur.data
  rw [String.data_append]
  exact List.take_left cur.data (strJoin rest).data

theorem strTake_strJoin_cons_len (cur : String) (rest : List String) :
    strTake (strJoin (cur :: rest)) cur.length = cur :=
  strTake_strJoin_cons cur rest

theorem strCmpStartOk_keyword_empty :
    strCmpStartOk (strJoin []) REND_KEYWORD = false := by
  decide

/-- Behaviour of the directory store on a single-descriptor buffer. -/
theorem store_dir_single (parse : String → Option ParseOutput)
    (responsible : Nat → Bool) (now approx_now : Int) (st : RendCacheState)
    (cur : String) :
    rend_cache_store_v2_desc_as_dir parse true responsible now approx_now st
        [cur] =
      match parse cur with
      | none => (st, .RCS_BADDESC)
      | some p =>
        ((storeV2DirOne responsible now approx_now (strJoin [cur]) cur [] p
          st 0).1, .RCS_OKAY) := by
  unfold rend_cache_store_v2_desc_as_dir storeV2DirLoop
  cases hp : parse cur with
  | none => simp [hp]
  | some p => simp [hp, strCmpStartOk_keyword_empty]

/-- Claim C7: result codes of the directory store path.  When the node is not
acting as a hidden-service directory the call returns `RCS_NOTDIR` without
storing anything; otherwise it returns `RCS_BADDESC` exactly when zero
descriptors parsed, and `RCS_OKAY` exactly when at least one parsed,
regardless of how many were admitted versus skipped. -/
theorem store_dir_status_contract (parse : String → Option ParseOutput)
    (responsible : Nat → Bool) (now approx_now : Int) (st : RendCacheState)
    (chunks : List String) :
    rend_cache_store_v2_desc_as_dir parse false responsible now approx_now st
        chunks = (st, .RCS_NOTDIR) ∧
    ((rend_cache_store_v2_desc_as_dir parse true responsible now approx_now
        st chunks).2 = .RCS_BADDESC ↔
      (storeV2DirLoop parse responsible now approx_now (strJoin chunks) st 0
        0 chunks).2.1 = 0) ∧
    ((rend_cache_store_v2_desc_as_dir parse true responsible now approx_now
        st chunks).2 = .RCS_OKAY ↔
      0 < (storeV2DirLoop parse responsible now approx_now (strJoin chunks)
        st 0 0 chunks).2.1) ∧
    (rend_cache_store_v2_desc_as_dir parse true responsible now approx_now
        st chunks).2 ≠ .RCS_NOTDIR := by
  refine ⟨rfl, ?_, ?_, ?_⟩
  · unfold rend_cache_store_v2_desc_as_dir
    by_cases h : (storeV2DirLoop parse responsible now approx_now
        (strJoin chunks) st 0 0 chunks).2.1 = 0 <;> simp [h]
  · unfold rend_cache_store_v2_desc_as_dir
    by_cases h : (storeV2DirLoop parse responsible now approx_now
        (strJoin chunks) st 0 0 chunks).2.1 = 0
    · simp [h]
    · simp [h]
      omega
  · unfold rend_cache_store_v2_desc_as_dir
    by_cases h : (storeV2DirLoop parse responsible now approx_now
        (strJoin chunks) st 0 0 chunks).2.1 = 0 <;> simp [h]

/-- Concrete instantiation of `store_dir_status_contract` (though its only
hypotheses are universally quantified inputs): not acting as a directory
refuses the whole call, and an unparseable buffer yields `RCS_BADDESC`. -/
theorem store_dir_status_contract_witness :
    rend_cache_store_v2_desc_as_dir (demoParse 0 0) false (fun _ => true) 0 0
        initState ["junk"] = (initState, .RCS_NOTDIR) ∧
    (rend_cache_store_v2_desc_as_dir (demoParse 0 0) true (fun _ => true) 0 0
        initState ["junk"]).2 = .RCS_BADDESC :=
  ⟨(store_dir_status_contract (demoParse 0 0) (fun _ => true) 0 0 initState
      ["junk"]).1,
   ((store_dir_status_contract (demoParse 0 0) (fun _ => true) 0 0 initState
      ["junk"]).2.1).mpr (by decide)⟩

/-- Claim C3, code-bug evidence: in a two-descriptor directory batch whose
second descriptor is byte-for-byte identical to the cached entry under its
`desc_id` (same timestamp, same bytes), the second descriptor is NOT skipped:
the identity-duplicate check compares the cached bytes against `desc`, the
start of the whole batch buffer, instead of `current_desc`, so it never
matches and the duplicate is re-admitted — `number_stored` ends at `2`
(one for the genuinely new first descriptor, one for the duplicate),
where a skip would leave it at `1`. -/
theorem duplicate_skip_code_bug :
    digestmap_get
        [(2, { desc := demoDescB, len := 31,
               parsed := { timestamp := 0, pk := 2 }, last_served := 0 })] 2 =
      some { desc := demoDescB, len := 31,
             parsed := { timestamp := 0, pk := 2 }, last_served := 0 } ∧
    demoParse 0 0 demoDescB =
      some { parsed := { timestamp := 0, pk := 2 }, desc_id := 2 } ∧
    (storeV2DirLoop (demoParse 0 0) (fun _ => true) 0 3600
        (strJoin [demoDescA, demoDescB])
        { rend_cache := []
          rend_cache_v2_dir := [(2,
            { desc := demoDescB, len := 31,
              parsed := { timestamp := 0, pk := 2 }, last_served := 0 })]
          rend_cache_total_allocation := 175
          have_underflowed := false
          have_overflowed := false }
        0 0 [demoDescA, demoDescB]).2.2 = 2 := by
  decide

/-- Claim C1: replacement discipline under one key.  On the directory store
path (single-descriptor buffer, responsibility and freshness gates passing,
incumbent `ed` under the parsed `desc_id`, whose bytes parse back to its own
parsed form): a strictly greater incoming timestamp replaces the incumbent;
an equal timestamp with byte-identical encoding retains the incumbent (the
call returns `RCS_OKAY` with the state unchanged); an equal timestamp with
different bytes replaces the incumbent.  On the client store path (incumbent
`ec` under key `"2" + service_id`): a strictly greater timestamp replaces the
incumbent, while an equal timestamp retains it, returning `RCS_OKAY` with the
incumbent and the state unchanged. -/
theorem replacement_discipline (parse : String → Option ParseOutput)
    (responsible : Nat → Bool) (now approx_now : Int) (cur : String)
    (p : ParseOutput) (st : RendCacheState) (ed : rend_cache_entry_t)
    (st2 : RendCacheState) (desc2 : String) (n2 : Nat)
    (parsed : rend_service_descriptor_t) (sid : String)
    (ec : rend_cache_entry_t)
    (hparse : parse cur = some p)
    (hresp : responsible p.desc_id = true)
    (hw1 : ¬ p.parsed.timestamp <
      now - REND_CACHE_MAX_AGE - REND_CACHE_MAX_SKEW)
    (hw2 : ¬ now + REND_CACHE_MAX_SKEW < p.parsed.timestamp)
    (hed : digestmap_get st.rend_cache_v2_dir p.desc_id = some ed)
    (hcoh : ∃ q, parse ed.desc = some q ∧ q.parsed = ed.parsed)
    (hwc1 : ¬ parsed.timestamp <
      now - REND_CACHE_MAX_AGE - REND_CACHE_MAX_SKEW)
    (hwc2 : ¬ now + REND_CACHE_MAX_SKEW < parsed.timestamp)
    (hec : strmap_get_lc st2.rend_cache ("2" ++ sid) = some ec) :
    (ed.parsed.timestamp < p.parsed.timestamp →
      digestmap_get (rend_cache_store_v2_desc_as_dir parse true responsible
          now approx_now st [cur]).1.rend_cache_v2_dir p.desc_id =
        some { desc := cur
               len := cur.data.length
               parsed := p.parsed
               last_served := ed.last_served }) ∧
    (ed.parsed.timestamp = p.parsed.timestamp → ed.desc = cur →
      rend_cache_store_v2_desc_as_dir parse true responsible now approx_now
        st [cur] = (st, .RCS_OKAY)) ∧
    (ed.parsed.timestamp = p.parsed.timestamp → ed.desc ≠ cur →
      digestmap_get (rend_cache_store_v2_desc_as_dir parse true responsible
          now approx_now st [cur]).1.rend_cache_v2_dir p.desc_id =
        some { desc := cur
               len := cur.data.length
               parsed := p.parsed
               last_served := ed.last_served }) ∧
    (ec.parsed.timestamp < parsed.timestamp →
      strmap_get_lc (rend_cache_store_v2_desc_as_client st2 now desc2 n2
          parsed sid).1.rend_cache ("2" ++ sid) =
        some { desc := strTake desc2 n2
               len := n2
               parsed := parsed
               last_served := ec.last_served }) ∧
    (ec.parsed.timestamp = parsed.timestamp →
      rend_cache_store_v2_desc_as_client st2 now desc2 n2 parsed sid =
        (st2, .RCS_OKAY, some ec)) := by
  refine ⟨?_, ?_, ?_, ?_, ?_⟩
  · intro hlt
    have hne : cur ≠ ed.desc := by
      intro he
      rcases hcoh with ⟨q, hq, hqp⟩
      rw [← he, hparse] at hq
      injection hq with h1
      rw [← h1] at hqp
      rw [← hqp] at hlt
      exact lt_irrefl _ hlt
    rw [store_dir_single, hparse]
    show digestmap_get (storeV2DirOne responsible now approx_now
      (strJoin [cur]) cur [] p st 0).1.rend_cache_v2_dir p.desc_id = _
    unfold storeV2DirOne
    rw [if_neg (by simp [hresp]), if_neg hw1, if_neg hw2, hed]
    have hdom : ¬ p.parsed.timestamp < ed.parsed.timestamp :=
      fun h => lt_asymm hlt h
    have hne2 : ¬ strJoin [cur] = ed.desc := by
      rw [strJoin_single]; exact hne
    simp [hdom, hne2, digestmap_get, digestmap_set, inc_v2_dir, dec_v2_dir,
      mapGet_mapSet_self, strTake_strJoin_cons, strTake_strJoin_cons_len]
  · intro heq hbytes
    rw [store_dir_single, hparse]
    have hone : storeV2DirOne responsible now approx_now (strJoin [cur]) cur
        [] p st 0 = (st, 0) := by
      unfold storeV2DirOne
      rw [if_neg (by simp [hresp]), if_neg hw1, if_neg hw2, hed]
      have h1 : ¬ p.parsed.timestamp < ed.parsed.timestamp := by
        rw [heq]; exact lt_irrefl _
      have h2 : strJoin [cur] = ed.desc := by
        rw [strJoin_single]; exact hbytes.symm
      simp [h1, h2]
    show ((storeV2DirOne responsible now approx_now (strJoin [cur]) cur [] p
      st 0).1, rend_cache_store_status_t.RCS_OKAY) = _
    rw [hone]
  · intro heq hbytes
    rw [store_dir_single, hparse]
    show digestmap_get (storeV2DirOne responsible now approx_now
      (strJoin [cur]) cur [] p st 0).1.rend_cache_v2_dir p.desc_id = _
    unfold storeV2DirOne
    rw [if_neg (by simp [hresp]), if_neg hw1, if_neg hw2, hed]
    have hdom : ¬ p.parsed.timestamp < ed.parsed.timestamp := by
      rw [heq]; exact lt_irrefl _
    have hne2 : ¬ strJoin [cur] = ed.desc := by
      rw [strJoin_single]; exact fun h => hbytes h.symm
    simp [hdom, hne2, digestmap_get, digestmap_set, inc_v2_dir, dec_v2_dir,
      mapGet_mapSet_self, strTake_strJoin_cons, strTake_strJoin_cons_len]
  · intro hlt
    unfold rend_cache_store_v2_desc_as_client
    rw [if_neg hwc1, if_neg hwc2]
    simp only [hec]
    rw [if_neg (show ¬ parsed.timestamp ≤ ec.parsed.timestamp by omega)]
    simp [strmap_get_lc, strmap_set_lc, inc_rend_cache, dec_rend_cache,
      mapGet_mapSet_self]
  · intro heq
    unfold rend_cache_store_v2_desc_as_client
    rw [if_neg hwc1, if_neg hwc2]
    simp only [hec]
    rw [if_pos (show parsed.timestamp ≤ ec.parsed.timestamp by omega)]

/-- Concrete instantiation of `replacement_discipline`. -/
theorem replacement_discipline_witness :
    digestmap_get (rend_cache_store_v2_desc_as_dir (demoParse 6 5) true
        (fun _ => true) 0 100
        { rend_cache := []
          rend_cache_v2_dir := [(1,
            { desc := demoDescB, len := 31,
              parsed := { timestamp := 5, pk := 2 }, last_served := 42 })]
          rend_cache_total_allocation := 175
          have_underflowed := false
          have_overflowed := false }
        [demoDescA]).1.rend_cache_v2_dir 1 =
      some { desc := demoDescA
             len := demoDescA.data.length
             parsed := { timestamp := 6, pk := 1 }
             last_served := 42 } ∧
    strmap_get_lc (rend_cache_store_v2_desc_as_client demoState 0 "nn" 2
        { timestamp := 6, pk := 3 } "bbbbbbbbbbbbbbbb").1.rend_cache
        ("2" ++ "bbbbbbbbbbbbbbbb") =
      some { desc := strTake "nn" 2
             len := 2
             parsed := { timestamp := 6, pk := 3 }
             last_served := 77 } := by
  have h := replacement_discipline (demoParse 6 5) (fun _ => true) 0 100
    demoDescA { parsed := { timestamp := 6, pk := 1 }, desc_id := 1 }
    { rend_cache := []
      rend_cache_v2_dir := [(1,
        { desc := demoDescB, len := 31,
          parsed := { timestamp := 5, pk := 2 }, last_served := 42 })]
      rend_cache_total_allocation := 175
      have_underflowed := false
      have_overflowed := false }
    { desc := demoDescB, len := 31, parsed := { timestamp := 5, pk := 2 },
      last_served := 42 }
    demoState "nn" 2 { timestamp := 6, pk := 3 } "bbbbbbbbbbbbbbbb"
    { desc := "old", len := 3, parsed := { timestamp := 5, pk := 9 },
      last_served := 77 }
    (by decide) (by decide) (by decide) (by decide) (by decide)
    ⟨{ parsed := { timestamp := 5, pk := 2 }, desc_id := 2 },
      by decide, by decide⟩
    (by decide) (by decide) (by decide)
  exact ⟨h.1 (by decide), h.2.2.2.1 (by decide)⟩

theorem rend_cache_clean_aux_filter (cutoff : Int) :
    ∀ (l : List (String × rend_cache_entry_t)) (st : RendCacheState),
      (rend_cache_clean_aux cutoff st l).2 =
        l.filter (fun kv => !decide (kv.2.parsed.timestamp < cutoff))
  | [], _ => rfl
  | (k, e) :: t, st => by
    by_cases h : e.parsed.timestamp < cutoff <;>
      simp [rend_cache_clean_aux, h, rend_cache_clean_aux_filter cutoff t]

theorem rend_cache_clean_aux_fields (cutoff : Int) :
    ∀ (l : List (String × rend_cache_entry_t)) (st : RendCacheState),
      (rend_cache_clean_aux cutoff st l).1.rend_cache = st.rend_cache ∧
      (rend_cache_clean_aux cutoff st l).1.rend_cache_v2_dir =
        st.rend_cache_v2_dir
  | [], _ => ⟨rfl, rfl⟩
  | (k, e) :: t, st => by
    by_cases h : e.parsed.timestamp < cutoff <;>
      simp [rend_cache_clean_aux, h, rend_cache_clean_aux_fields cutoff t,
        rend_cache_entry_free, dec_rend_cache, dec_v2_dir]

/-- Claim C4, counterexample: the age-only sweep does NOT touch the directory
index — an entry whose parsed timestamp is far below the cutoff survives
`rend_cache_clean` when it lives in the directory index. -/
theorem clean_directory_index_counterexample :
    (-1000000 : Int) < 0 - REND_CACHE_MAX_AGE - REND_CACHE_MAX_SKEW ∧
    (rend_cache_clean
        { rend_cache := []
          rend_cache_v2_dir := [(3,
            { desc := "s", len := 1,
              parsed := { timestamp := -1000000, pk := 1 },
              last_served := 0 })]
          rend_cache_total_allocation := 145
          have_underflowed := false
          have_overflowed := false } 0).rend_cache_v2_dir =
      [(3, { desc := "s", len := 1,
             parsed := { timestamp := -1000000, pk := 1 },
             last_served := 0 })] := by
  decide

/-- Claim C4 (amended): `rend_cache_clean(now)` sweeps the CLIENT index only,
removing exactly the entries whose parsed timestamp is strictly below
`now - MAX_AGE - MAX_SKEW` and keeping every other client entry; the
directory index is left untouched (its eviction is the richer directory-only
sweep). -/
theorem rend_cache_clean_amended (st : RendCacheState) (now : Int) :
    (rend_cache_clean st now).rend_cache_v2_dir = st.rend_cache_v2_dir ∧
    (rend_cache_clean st now).rend_cache =
      st.rend_cache.filter (fun kv =>
        !decide (kv.2.parsed.timestamp <
          now - REND_CACHE_MAX_AGE - REND_CACHE_MAX_SKEW)) := by
  constructor
  · show (rend_cache_clean_aux
      (now - REND_CACHE_MAX_AGE - REND_CACHE_MAX_SKEW) st
      st.rend_cache).1.rend_cache_v2_dir = st.rend_cache_v2_dir
    exact (rend_cache_clean_aux_fields _ _ _).2
  · show (rend_cache_clean_aux
      (now - REND_CACHE_MAX_AGE - REND_CACHE_MAX_SKEW) st st.rend_cache).2 = _
    exact rend_cache_clean_aux_filter _ _ _

theorem cleanV2DirPass_filter (responsible : Nat → Bool)
    (cutoff ls_cutoff : Int) :
    ∀ (l : List (Nat × rend_cache_entry_t)) (st : RendCacheState)
      (bytes : Nat),
      (cleanV2DirPass responsible cutoff ls_cutoff st bytes l).2.2 =
        l.filter (fun kv => !decide (kv.2.parsed.timestamp < cutoff ∨
          kv.2.last_served < ls_cutoff ∨ responsible kv.1 = false))
  | [], _, _ => rfl
  | (k, e) :: t, st, bytes => by
    unfold cleanV2DirPass
    by_cases h : e.parsed.timestamp < cutoff ∨ e.last_served < ls_cutoff ∨
        responsible k = false
    · rw [if_pos h, cleanV2DirPass_filter responsible cutoff ls_cutoff t,
        List.filter_cons]
      rcases h with h | h | h <;> simp [h]
    · rw [if_neg h]
      show (k, e) :: (cleanV2DirPass responsible cutoff ls_cutoff st bytes
        t).2.2 = _
      rw [cleanV2DirPass_filter responsible cutoff ls_cutoff t,
        List.filter_cons]
      push_neg at h
      obtain ⟨h1, h2, h3⟩ := h
      have h3' : responsible k = true := by
        cases hr : responsible k
        · exact absurd hr h3
        · rfl
      simp [h1, h2, h3']

/-- Trace behaviour of the escalating directory sweep loop: the per-pass
cumulative `bytes_removed` list is nonempty; at the end either the byte
target was reached or the advanced served cutoff passed `now`; every
non-final pass ran only because its byte total was still short of the target
AND its advanced cutoff had not passed `now`; a zero byte target forces
exactly one pass; and a one-pass run leaves the directory map exactly
filtered by the pass predicate at the initial served cutoff. -/
theorem cleanV2DirLoop_trace (responsible : Nat → Bool) (now cutoff : Int)
    (force : Nat) (st : RendCacheState) (ls : Int) (bytes : Nat) :
    (cleanV2DirLoop responsible now cutoff force st ls bytes).2 ≠ [] ∧
    (force ≤ (cleanV2DirLoop responsible now cutoff force st ls
        bytes).2.getLast?.getD 0 ∨
      now < ls + 1800 *
        (cleanV2DirLoop responsible now cutoff force st ls bytes).2.length) ∧
    (∀ i, i + 1 <
        (cleanV2DirLoop responsible now cutoff force st ls bytes).2.length →
      (cleanV2DirLoop responsible now cutoff force st ls bytes).2.getD i 0 <
          force ∧
        ls + 1800 * (i + 1) ≤ now) ∧
    (force = 0 →
      (cleanV2DirLoop responsible now cutoff force st ls bytes).2.length =
        1) ∧
    ((cleanV2DirLoop responsible now cutoff force st ls bytes).2.length = 1 →
      (cleanV2DirLoop responsible now cutoff force st ls
          bytes).1.rend_cache_v2_dir =
        st.rend_cache_v2_dir.filter (fun kv =>
          !decide (kv.2.parsed.timestamp < cutoff ∨
            kv.2.last_served < ls ∨ responsible kv.1 = false))) := by
  rw [cleanV2DirLoop]
  by_cases h1 : now < ls + 1800
  · simp only [if_pos h1]
    refine ⟨by simp, ?_, ?_, fun _ => by simp, ?_⟩
    · right
      simp only [List.length_cons, List.length_nil]
      omega
    · intro i hi
      simp at hi
    · intro _
      show (cleanV2DirPass responsible cutoff ls st bytes
        st.rend_cache_v2_dir).2.2 = _
      exact cleanV2DirPass_filter responsible cutoff ls _ _ _
  · by_cases h2 : (cleanV2DirPass responsible cutoff ls st bytes
        st.rend_cache_v2_dir).2.1 < force
    · simp only [if_neg h1, if_pos h2]
      have ih := cleanV2DirLoop_trace responsible now cutoff force
        { rend_cache := (cleanV2DirPass responsible cutoff ls st bytes
            st.rend_cache_v2_dir).1.rend_cache
          rend_cache_v2_dir := (cleanV2DirPass responsible cutoff ls st bytes
            st.rend_cache_v2_dir).2.2
          rend_cache_total_allocation := (cleanV2DirPass responsible cutoff
            ls st bytes st.rend_cache_v2_dir).1.rend_cache_total_allocation
          have_underflowed := (cleanV2DirPass responsible cutoff ls st bytes
            st.rend_cache_v2_dir).1.have_underflowed
          have_overflowed := (cleanV2DirPass responsible cutoff ls st bytes
            st.rend_cache_v2_dir).1.have_overflowed }
        (ls + 1800)
        (cleanV2DirPass responsible cutoff ls st bytes
          st.rend_cache_v2_dir).2.1
      obtain ⟨ihne, ihfin, ihmin, ihforce, _⟩ := ih
      refine ⟨by simp, ?_, ?_, ?_, ?_⟩
      · rcases ihfin with hf | hf
        · left
          rcases List.exists_cons_of_ne_nil ihne with ⟨x, xs, hx⟩
          simp only [hx, List.getLast?_cons_cons] at hf ⊢
          exact hf
        · right
          simp only [List.length_cons]
          omega
      · intro i hi
        simp only [List.length_cons] at hi
        cases i with
        | zero =>
          refine ⟨h2, ?_⟩
          omega
        | succ j =>
          have hmj := ihmin j (by omega)
          refine ⟨?_, ?_⟩
          · simpa using hmj.1
          · have h3 := hmj.2
            omega
      · intro hf
        rw [hf] at h2
        exact absurd h2 (by omega)
      · intro hlen
        simp only [List.length_cons] at hlen
        exact absurd (List.eq_nil_of_length_eq_zero (by omega)) ihne
    · simp only [if_neg h1, if_neg h2]
      refine ⟨by simp, ?_, ?_, ?_, ?_⟩
      · left
        simp only [List.getLast?_singleton, Option.getD_some]
        omega
      · intro i hi
        simp at hi
      · intro _
        rfl
      · intro _
        show (cleanV2DirPass responsible cutoff ls st bytes
          st.rend_cache_v2_dir).2.2 = _
        exact cleanV2DirPass_filter responsible cutoff ls _ _ _
  termination_by (now - ls).toNat
  decreasing_by
    simp only [not_lt] at h1
    omega

/-- Claim C5: the escalating directory sweep always terminates (the loop is a
total function and always records at least one pass); it halts as soon as, at
the end of a pass, either the accumulated `bytes_removed` has reached
`force_remove` or the advanced served cutoff exceeds `now` — every non-final
pass ran only because both halting conditions were still false, so whichever
condition happens first stops the loop; and `clean_directory(now, 0)`
performs exactly one pass, evicting exactly the entries that are naturally
expired at the initial cutoffs (timestamp below the age cutoff, `last_served`
below the initial served cutoff, or no longer this node's responsibility). -/
theorem clean_directory_sweep_contract (responsible : Nat → Bool) (now : Int)
    (force_remove : Nat) (st : RendCacheState) :
    (cleanV2DirLoop responsible now
      (now - REND_CACHE_MAX_AGE - REND_CACHE_MAX_SKEW) force_remove st
      (now - REND_CACHE_MAX_AGE - REND_CACHE_MAX_SKEW) 0).2 ≠ [] ∧
    (force_remove ≤ (cleanV2DirLoop responsible now
        (now - REND_CACHE_MAX_AGE - REND_CACHE_MAX_SKEW) force_remove st
        (now - REND_CACHE_MAX_AGE - REND_CACHE_MAX_SKEW)
        0).2.getLast?.getD 0 ∨
      now < (now - REND_CACHE_MAX_AGE - REND_CACHE_MAX_SKEW) + 1800 *
        (cleanV2DirLoop responsible now
          (now - REND_CACHE_MAX_AGE - REND_CACHE_MAX_SKEW) force_remove st
          (now - REND_CACHE_MAX_AGE - REND_CACHE_MAX_SKEW) 0).2.length) ∧
    (∀ i, i + 1 < (cleanV2DirLoop responsible now
        (now - REND_CACHE_MAX_AGE - REND_CACHE_MAX_SKEW) force_remove st
        (now - REND_CACHE_MAX_AGE - REND_CACHE_MAX_SKEW) 0).2.length →
      (cleanV2DirLoop responsible now
        (now - REND_CACHE_MAX_AGE - REND_CACHE_MAX_SKEW) force_remove st
        (now - REND_CACHE_MAX_AGE - REND_CACHE_MAX_SKEW) 0).2.getD i 0 <
          force_remove ∧
        (now - REND_CACHE_MAX_AGE - REND_CACHE_MAX_SKEW) + 1800 * (i + 1) ≤
          now) ∧
    (force_remove = 0 →
      (cleanV2DirLoop responsible now
        (now - REND_CACHE_MAX_AGE - REND_CACHE_MAX_SKEW) force_remove st
        (now - REND_CACHE_MAX_AGE - REND_CACHE_MAX_SKEW) 0).2.length = 1 ∧
      (rend_cache_clean_v2_descs_as_dir responsible st now
          0).rend_cache_v2_dir =
        st.rend_cache_v2_dir.filter (fun kv =>
          !decide (kv.2.parsed.timestamp <
              now - REND_CACHE_MAX_AGE - REND_CACHE_MAX_SKEW ∨
            kv.2.last_served <
              now - REND_CACHE_MAX_AGE - REND_CACHE_MAX_SKEW ∨
            responsible kv.1 = false))) := by
  have h := cleanV2DirLoop_trace responsible now
    (now - REND_CACHE_MAX_AGE - REND_CACHE_MAX_SKEW) force_remove st
    (now - REND_CACHE_MAX_AGE - REND_CACHE_MAX_SKEW) 0
  refine ⟨h.1, h.2.1, h.2.2.1, ?_⟩
  intro hf
  subst hf
  have hlen := h.2.2.2.1 rfl
  exact ⟨hlen, h.2.2.2.2 hlen⟩

/-- Concrete instantiation of `clean_directory_sweep_contract`. -/
theorem clean_directory_sweep_contract_witness :
    (cleanV2DirLoop (fun _ => true) 1000000
      (1000000 - REND_CACHE_MAX_AGE - REND_CACHE_MAX_SKEW) 0 demoState
      (1000000 - REND_CACHE_MAX_AGE - REND_CACHE_MAX_SKEW) 0).2 ≠ [] ∧
    (rend_cache_clean_v2_descs_as_dir (fun _ => true) demoState 1000000
        0).rend_cache_v2_dir =
      demoState.rend_cache_v2_dir.filter (fun kv =>
        !decide (kv.2.parsed.timestamp <
            1000000 - REND_CACHE_MAX_AGE - REND_CACHE_MAX_SKEW ∨
          kv.2.last_served <
            1000000 - REND_CACHE_MAX_AGE - REND_CACHE_MAX_SKEW ∨
          (fun _ => true : Nat → Bool) kv.1 = false)) :=
  ⟨(clean_directory_sweep_contract (fun _ => true) 1000000 0 demoState).1,
   ((clean_directory_sweep_contract (fun _ => true) 1000000 0
      demoState).2.2.2 rfl).2⟩

theorem sumCharges_mapSet_present {α : Type} [DecidableEq α] (k : α)
    (v : rend_cache_entry_t) :
    ∀ (m : List (α × rend_cache_entry_t)) (e : rend_cache_entry_t),
      mapGet k m = some e →
      sumCharges (mapSet k v m) + rend_cache_entry_allocation e =
        sumCharges m + rend_cache_entry_allocation v
  | [], e, h => by simp [mapGet] at h
  | (k', v') :: t, e, h => by
    by_cases hk : k' = k
    · unfold mapGet at h
      rw [if_pos hk] at h
      injection h with h
      subst h
      unfold mapSet
      rw [if_pos hk]
      simp only [sumCharges]
      omega
    · unfold mapGet at h
      rw [if_neg hk] at h
      have ih := sumCharges_mapSet_present k v t e h
      unfold mapSet
      rw [if_neg hk]
      simp only [sumCharges]
      omega

theorem sumCharges_mapSet_absent {α : Type} [DecidableEq α] (k : α)
    (v : rend_cache_entry_t) :
    ∀ (m : List (α × rend_cache_entry_t)), mapGet k m = none →
      sumCharges (mapSet k v m) =
        sumCharges m + rend_cache_entry_allocation v
  | [], _ => by simp [mapGet, mapSet, sumCharges]
  | (k', v') :: t, h => by
    by_cases hk : k' = k
    · unfold mapGet at h
      rw [if_pos hk] at h
      exact absurd h (by simp)
    · unfold mapGet at h
      rw [if_neg hk] at h
      have ih := sumCharges_mapSet_absent k v t h
      unfold mapSet
      rw [if_neg hk]
      simp only [sumCharges]
      omega

theorem charge_le_sumCharges {α : Type} :
    ∀ (m : List (α × rend_cache_entry_t)) (p : α × rend_cache_entry_t),
      p ∈ m → rend_cache_entry_allocation p.2 ≤ sumCharges m
  | [], p, h => by simp at h
  | q :: t, p, h => by
    obtain ⟨a, e⟩ := q
    rcases List.mem_cons.mp h with h | h
    · subst h
      simp only [sumCharges]
      omega
    · have ih := charge_le_sumCharges t p h
      simp only [sumCharges]
      omega

theorem freeEntries_spec {α : Type} :
    ∀ (l : List (α × rend_cache_entry_t)) (st : RendCacheState),
      (freeEntries st l).rend_cache = st.rend_cache ∧
      (freeEntries st l).rend_cache_v2_dir = st.rend_cache_v2_dir ∧
      (freeEntries st l).have_overflowed = st.have_overflowed ∧
      ((freeEntries st l).have_underflowed = false →
        st.have_underflowed = false ∧
        (freeEntries st l).rend_cache_total_allocation + sumCharges l =
          st.rend_cache_total_allocation)
  | [], st => ⟨rfl, rfl, rfl, fun h =>
      ⟨h, by simp [freeEntries, sumCharges]⟩⟩
  | (a, e) :: t, st => by
    have ih := freeEntries_spec t (rend_cache_entry_free st e)
    simp only [freeEntries]
    unfold rend_cache_entry_free at ih ⊢
    refine ⟨?_, ?_, ?_, ?_⟩
    · rw [ih.1, dec_rend_cache]
    · rw [ih.2.1, dec_v2_dir]
    · rw [ih.2.2.1, dec_over]
    · intro hu
      have h1 := ih.2.2.2 hu
      have h2 := dec_under_mono st (rend_cache_entry_allocation e) h1.1
      have h3 := dec_exact st (rend_cache_entry_allocation e) h1.1
      refine ⟨h2, ?_⟩
      simp only [sumCharges]
      omega

theorem rend_cache_clean_aux_acc (cutoff : Int) :
    ∀ (l : List (String × rend_cache_entry_t)) (st : RendCacheState),
      (rend_cache_clean_aux cutoff st l).1.have_overflowed =
        st.have_overflowed ∧
      ((rend_cache_clean_aux cutoff st l).1.have_underflowed = false →
        st.have_underflowed = false ∧
        (rend_cache_clean_aux cutoff st l).1.rend_cache_total_allocation +
            sumCharges l =
          st.rend_cache_total_allocation +
            sumCharges (rend_cache_clean_aux cutoff st l).2)
  | [], st => ⟨rfl, fun _ => ⟨by assumption, rfl⟩⟩
  | (k, e) :: t, st => by
    by_cases h : e.parsed.timestamp < cutoff
    · have ih := rend_cache_clean_aux_acc cutoff t (rend_cache_entry_free st e)
      unfold rend_cache_clean_aux
      rw [if_pos h]
      unfold rend_cache_entry_free at *
      refine ⟨?_, ?_⟩
      · rw [ih.1, dec_over]
      · intro hu
        have h1 := ih.2 hu
        have h2 := dec_under_mono st (rend_cache_entry_allocation e) h1.1
        have h3 := dec_exact st (rend_cache_entry_allocation e) h1.1
        refine ⟨h2, ?_⟩
        simp only [sumCharges]
        omega
    · have ih := rend_cache_clean_aux_acc cutoff t st
      unfold rend_cache_clean_aux
      rw [if_neg h]
      refine ⟨ih.1, ?_⟩
      intro hu
      have h1 := ih.2 hu
      refine ⟨h1.1, ?_⟩
      simp only [sumCharges]
      omega

theorem cleanV2DirPass_acc (responsible : Nat → Bool)
    (cutoff ls_cutoff : Int) :
    ∀ (l : List (Nat × rend_cache_entry_t)) (st : RendCacheState)
      (bytes : Nat),
      (cleanV2DirPass responsible cutoff ls_cutoff st bytes l).1.rend_cache =
        st.rend_cache ∧
      (cleanV2DirPass responsible cutoff ls_cutoff st bytes
          l).1.rend_cache_v2_dir = st.rend_cache_v2_dir ∧
      (cleanV2DirPass responsible cutoff ls_cutoff st bytes
          l).1.have_overflowed = st.have_overflowed ∧
      ((cleanV2DirPass responsible cutoff ls_cutoff st bytes
          l).1.have_underflowed = false →
        st.have_underflowed = false ∧
        (cleanV2DirPass responsible cutoff ls_cutoff st bytes
            l).1.rend_cache_total_allocation + sumCharges l =
          st.rend_cache_total_allocation + sumCharges
            (cleanV2DirPass responsible cutoff ls_cutoff st bytes l).2.2)
  | [], st, bytes => ⟨rfl, rfl, rfl, fun _ => ⟨by assumption, rfl⟩⟩
  | (k, e) :: t, st, bytes => by
    by_cases h : e.parsed.timestamp < cutoff ∨ e.last_served < ls_cutoff ∨
        responsible k = false
    · have ih := cleanV2DirPass_acc responsible cutoff ls_cutoff t
        (rend_cache_entry_free st e) (bytes + rend_cache_entry_allocation e)
      unfold cleanV2DirPass
      rw [if_pos h]
      unfold rend_cache_entry_free at *
      refine ⟨?_, ?_, ?_, ?_⟩
      · rw [ih.1, dec_rend_cache]
      · rw [ih.2.1, dec_v2_dir]
      · rw [ih.2.2.1, dec_over]
      · intro hu
        have h1 := ih.2.2.2 hu
        have h2 := dec_under_mono st (rend_cache_entry_allocation e) h1.1
        have h3 := dec_exact st (rend_cache_entry_allocation e) h1.1
        refine ⟨h2, ?_⟩
        simp only [sumCharges]
        omega
    · have ih := cleanV2DirPass_acc responsible cutoff ls_cutoff t st bytes
      unfold cleanV2DirPass
      rw [if_neg h]
      refine ⟨ih.1, ih.2.1, ih.2.2.1, ?_⟩
      intro hu
      have h1 := ih.2.2.2 hu
      refine ⟨h1.1, ?_⟩
      simp only [sumCharges]
      omega

theorem inc_account_inv (stm : RendCacheState) (added : Nat)
    (hpre : flagsUnset stm →
      stm.rend_cache_total_allocation + added = totalCharges stm) :
    AccountInv (rend_cache_increment_allocation stm added) := by
  intro hfu
  have hio : stm.have_overflowed = false := inc_over_mono _ _ hfu.1
  have hiu : stm.have_underflowed = false :=
    (inc_under stm added).symm.trans hfu.2
  rw [inc_exact _ _ hfu.1]
  have hmaps : totalCharges (rend_cache_increment_allocation stm added) =
      totalCharges stm := by
    unfold totalCharges
    rw [inc_rend_cache, inc_v2_dir]
  rw [hmaps]
  exact hpre ⟨hio, hiu⟩

theorem client_replace_inv (st : RendCacheState) (key : String)
    (e e2 : rend_cache_entry_t)
    (hget : mapGet (strLower key) st.rend_cache = some e)
    (h : AccountInv st) :
    AccountInv (rend_cache_increment_allocation
      { rend_cache := strmap_set_lc
          (rend_cache_decrement_allocation st
            (rend_cache_entry_allocation e)).rend_cache key e2
        rend_cache_v2_dir := (rend_cache_decrement_allocation st
          (rend_cache_entry_allocation e)).rend_cache_v2_dir
        rend_cache_total_allocation := (rend_cache_decrement_allocation st
          (rend_cache_entry_allocation e)).rend_cache_total_allocation
        have_underflowed := (rend_cache_decrement_allocation st
          (rend_cache_entry_allocation e)).have_underflowed
        have_overflowed := (rend_cache_decrement_allocation st
          (rend_cache_entry_allocation e)).have_overflowed }
      (rend_cache_entry_allocation e2)) := by
  apply inc_account_inv
  intro hfu
  have hdo : (rend_cache_decrement_allocation st
      (rend_cache_entry_allocation e)).have_overflowed = false := hfu.1
  have hdu : (rend_cache_decrement_allocation st
      (rend_cache_entry_allocation e)).have_underflowed = false := hfu.2
  have hsto : st.have_overflowed = false := by
    rw [← dec_over st (rend_cache_entry_allocation e)]
    exact hdo
  have hstu := dec_under_mono st (rend_cache_entry_allocation e) hdu
  have hde := dec_exact st (rend_cache_entry_allocation e) hdu
  have hbase := h ⟨hsto, hstu⟩
  have hsum := sumCharges_mapSet_present (strLower key) e2 st.rend_cache e hget
  show (rend_cache_decrement_allocation st
      (rend_cache_entry_allocation e)).rend_cache_total_allocation +
      rend_cache_entry_allocation e2 =
    sumCharges (strmap_set_lc (rend_cache_decrement_allocation st
      (rend_cache_entry_allocation e)).rend_cache key e2) +
    sumCharges (rend_cache_decrement_allocation st
      (rend_cache_entry_allocation e)).rend_cache_v2_dir
  rw [dec_rend_cache, dec_v2_dir]
  unfold strmap_set_lc
  unfold totalCharges at hbase
  omega

theorem client_fresh_inv (st : RendCacheState) (key : String)
    (e2 : rend_cache_entry_t)
    (hget : mapGet (strLower key) st.rend_cache = none)
    (h : AccountInv st) :
    AccountInv (rend_cache_increment_allocation
      { rend_cache := strmap_set_lc st.rend_cache key e2
        rend_cache_v2_dir := st.rend_cache_v2_dir
        rend_cache_total_allocation := st.rend_cache_total_allocation
        have_underflowed := st.have_underflowed
        have_overflowed := st.have_overflowed }
      (rend_cache_entry_allocation e2)) := by
  apply inc_account_inv
  intro hfu
  have hbase := h ⟨hfu.1, hfu.2⟩
  have hsum := sumCharges_mapSet_absent (strLower key) e2 st.rend_cache hget
  show st.rend_cache_total_allocation + rend_cache_entry_allocation e2 =
    sumCharges (strmap_set_lc st.rend_cache key e2) +
    sumCharges st.rend_cache_v2_dir
  unfold strmap_set_lc
  unfold totalCharges at hbase
  omega

theorem dir_replace_inv (st : RendCacheState) (k : Nat)
    (e e2 : rend_cache_entry_t)
    (hget : mapGet k st.rend_cache_v2_dir = some e)
    (h : AccountInv st) :
    AccountInv (rend_cache_increment_allocation
      { rend_cache := (rend_cache_decrement_allocation st
          (rend_cache_entry_allocation e)).rend_cache
        rend_cache_v2_dir := digestmap_set (rend_cache_decrement_allocation
          st (rend_cache_entry_allocation e)).rend_cache_v2_dir k e2
        rend_cache_total_allocation := (rend_cache_decrement_allocation st
          (rend_cache_entry_allocation e)).rend_cache_total_allocation
        have_underflowed := (rend_cache_decrement_allocation st
          (rend_cache_entry_allocation e)).have_underflowed
        have_overflowed := (rend_cache_decrement_allocation st
          (rend_cache_entry_allocation e)).have_overflowed }
      (rend_cache_entry_allocation e2)) := by
  apply inc_account_inv
  intro hfu
  have hdo : (rend_cache_decrement_allocation st
      (rend_cache_entry_allocation e)).have_overflowed = false := hfu.1
  have hdu : (rend_cache_decrement_allocation st
      (rend_cache_entry_allocation e)).have_underflowed = false := hfu.2
  have hsto : st.have_overflowed = false := by
    rw [← dec_over st (rend_cache_entry_allocation e)]
    exact hdo
  have hstu := dec_under_mono st (rend_cache_entry_allocation e) hdu
  have hde := dec_exact st (rend_cache_entry_allocation e) hdu
  have hbase := h ⟨hsto, hstu⟩
  have hsum := sumCharges_mapSet_present k e2 st.rend_cache_v2_dir e hget
  show (rend_cache_decrement_allocation st
      (rend_cache_entry_allocation e)).rend_cache_total_allocation +
      rend_cache_entry_allocation e2 =
    sumCharges (rend_cache_decrement_allocation st
      (rend_cache_entry_allocation e)).rend_cache +
    sumCharges (digestmap_set (rend_cache_decrement_allocation st
      (rend_cache_entry_allocation e)).rend_cache_v2_dir k e2)
  rw [dec_rend_cache, dec_v2_dir]
  unfold digestmap_set
  unfold totalCharges at hbase
  omega

theorem dir_fresh_inv (st : RendCacheState) (k : Nat)
    (e2 : rend_cache_entry_t)
    (hget : mapGet k st.rend_cache_v2_dir = none)
    (h : AccountInv st) :
    AccountInv (rend_cache_increment_allocation
      { rend_cache := st.rend_cache
        rend_cache_v2_dir := digestmap_set st.rend_cache_v2_dir k e2
        rend_cache_total_allocation := st.rend_cache_total_allocation
        have_underflowed := st.have_underflowed
        have_overflowed := st.have_overflowed }
      (rend_cache_entry_allocation e2)) := by
  apply inc_account_inv
  intro hfu
  have hbase := h ⟨hfu.1, hfu.2⟩
  have hsum := sumCharges_mapSet_absent k e2 st.rend_cache_v2_dir hget
  show st.rend_cache_total_allocation + rend_cache_entry_allocation e2 =
    sumCharges st.rend_cache +
    sumCharges (digestmap_set st.rend_cache_v2_dir k e2)
  unfold digestmap_set
  unfold totalCharges at hbase
  omega

theorem storeClient_inv (st : RendCacheState) (now : Int) (desc : String)
    (n : Nat) (parsed : rend_service_descriptor_t) (sid : String)
    (h : AccountInv st) :
    AccountInv
      (rend_cache_store_v2_desc_as_client st now desc n parsed sid).1 := by
  unfold rend_cache_store_v2_desc_as_client
  by_cases h1 : parsed.timestamp <
      now - REND_CACHE_MAX_AGE - REND_CACHE_MAX_SKEW
  · rw [if_pos h1]; exact h
  rw [if_neg h1]
  by_cases h2 : now + REND_CACHE_MAX_SKEW < parsed.timestamp
  · rw [if_pos h2]; exact h
  rw [if_neg h2]
  cases hgc : strmap_get_lc st.rend_cache ("2" ++ sid) with
  | some e =>
    simp only [hgc]
    by_cases h3 : parsed.timestamp ≤ e.parsed.timestamp
    · rw [if_pos h3]; exact h
    · rw [if_neg h3]
      exact client_replace_inv st ("2" ++ sid) e _ hgc h
  | none =>
    simp only [hgc]
    exact client_fresh_inv st ("2" ++ sid) _ hgc h

theorem storeDirOne_inv (responsible : Nat → Bool) (now approx_now : Int)
    (desc cur : String) (rest : List String) (p : ParseOutput)
    (st : RendCacheState) (n_stored : Nat) (h : AccountInv st) :
    AccountInv (storeV2DirOne responsible now approx_now desc cur rest p st
      n_stored).1 := by
  unfold storeV2DirOne
  by_cases h1 : responsible p.desc_id = false
  · rw [if_pos h1]; exact h
  rw [if_neg h1]
  by_cases h2 : p.parsed.timestamp <
      now - REND_CACHE_MAX_AGE - REND_CACHE_MAX_SKEW
  · rw [if_pos h2]; exact h
  rw [if_neg h2]
  by_cases h3 : now + REND_CACHE_MAX_SKEW < p.parsed.timestamp
  · rw [if_pos h3]; exact h
  rw [if_neg h3]
  cases hg : digestmap_get st.rend_cache_v2_dir p.desc_id with
  | some e =>
    simp only [hg]
    by_cases h4 : p.parsed.timestamp < e.parsed.timestamp
    · rw [if_pos h4]; exact h
    rw [if_neg h4]
    by_cases h5 : desc = e.desc
    · rw [if_pos h5]; exact h
    · rw [if_neg h5]
      exact dir_replace_inv st p.desc_id e _ hg h
  | none =>
    simp only [hg]
    exact dir_fresh_inv st p.desc_id _ hg h

theorem storeDirLoop_inv (parse : String → Option ParseOutput)
    (responsible : Nat → Bool) (now approx_now : Int) (desc : String) :
    ∀ (chunks : List String) (st : RendCacheState) (np ns : Nat),
      AccountInv st →
      AccountInv (storeV2DirLoop parse responsible now approx_now desc st np
        ns chunks).1
  | [], _, _, _, h => h
  | cur :: rest, st, np, ns, h => by
    unfold storeV2DirLoop
    cases hp : parse cur with
    | none => exact h
    | some p =>
      simp only [hp]
      by_cases hc : strCmpStartOk (strJoin rest) REND_KEYWORD = true
      · rw [if_pos hc]
        exact storeDirLoop_inv parse responsible now approx_now desc rest _
          (np + 1) _
          (storeDirOne_inv responsible now approx_now desc cur rest p st ns h)
      · rw [if_neg hc]
        exact storeDirOne_inv responsible now approx_now desc cur rest p st
          ns h

theorem storeDir_inv (parse : String → Option ParseOutput) (acting : Bool)
    (responsible : Nat → Bool) (now approx_now : Int) (st : RendCacheState)
    (chunks : List String) (h : AccountInv st) :
    AccountInv (rend_cache_store_v2_desc_as_dir parse acting responsible now
      approx_now st chunks).1 := by
  unfold rend_cache_store_v2_desc_as_dir
  by_cases ha : acting = false
  · rw [if_pos ha]; exact h
  rw [if_neg ha]
  have hloop := storeDirLoop_inv parse responsible now approx_now
    (strJoin chunks) chunks st 0 0 h
  by_cases hz : (storeV2DirLoop parse responsible now approx_now
      (strJoin chunks) st 0 0 chunks).2.1 = 0 <;> simpa [hz] using hloop

theorem lookupDir_inv (st : RendCacheState) (desc_id : Nat)
    (approx_now : Int) (h : AccountInv st) :
    AccountInv (rend_cache_lookup_v2_desc_as_dir st desc_id approx_now).1 := by
  unfold rend_cache_lookup_v2_desc_as_dir
  cases hg : digestmap_get st.rend_cache_v2_dir desc_id with
  | none => exact h
  | some e =>
    simp only [hg]
    intro hfu
    have hbase := h ⟨hfu.1, hfu.2⟩
    have hsum := sumCharges_mapSet_present desc_id
      { e with last_served := approx_now } st.rend_cache_v2_dir e hg
    show st.rend_cache_total_allocation =
      sumCharges st.rend_cache + sumCharges
        (digestmap_set st.rend_cache_v2_dir desc_id
          { e with last_served := approx_now })
    unfold digestmap_set
    unfold totalCharges at hbase
    have hch : rend_cache_entry_allocation { e with last_served := approx_now }
        = rend_cache_entry_allocation e := rfl
    omega

theorem clean_inv (st : RendCacheState) (now : Int) (h : AccountInv st) :
    AccountInv (rend_cache_clean st now) := by
  intro hfu
  have hacc := rend_cache_clean_aux_acc
    (now - REND_CACHE_MAX_AGE - REND_CACHE_MAX_SKEW) st.rend_cache st
  have hflds := rend_cache_clean_aux_fields
    (now - REND_CACHE_MAX_AGE - REND_CACHE_MAX_SKEW) st.rend_cache st
  have hov : (rend_cache_clean_aux
      (now - REND_CACHE_MAX_AGE - REND_CACHE_MAX_SKEW) st
      st.rend_cache).1.have_overflowed = false := hfu.1
  have hun : (rend_cache_clean_aux
      (now - REND_CACHE_MAX_AGE - REND_CACHE_MAX_SKEW) st
      st.rend_cache).1.have_underflowed = false := hfu.2
  have hsto : st.have_overflowed = false := by rw [← hacc.1]; exact hov
  have h2 := hacc.2 hun
  have hbase := h ⟨hsto, h2.1⟩
  show (rend_cache_clean_aux
      (now - REND_CACHE_MAX_AGE - REND_CACHE_MAX_SKEW) st
      st.rend_cache).1.rend_cache_total_allocation =
    sumCharges (rend_cache_clean_aux
      (now - REND_CACHE_MAX_AGE - REND_CACHE_MAX_SKEW) st st.rend_cache).2 +
    sumCharges (rend_cache_clean_aux
      (now - REND_CACHE_MAX_AGE - REND_CACHE_MAX_SKEW) st
      st.rend_cache).1.rend_cache_v2_dir
  rw [hflds.2]
  unfold totalCharges at hbase
  omega

theorem purge_inv (st : RendCacheState) (h : AccountInv st) :
    AccountInv (rend_cache_purge st) := by
  intro hfu
  have hspec := freeEntries_spec st.rend_cache st
  have hov : (freeEntries st st.rend_cache).have_overflowed = false := hfu.1
  have hun : (freeEntries st st.rend_cache).have_underflowed = false := hfu.2
  have hsto : st.have_overflowed = false := by rw [← hspec.2.2.1]; exact hov
  have h2 := hspec.2.2.2 hun
  have hbase := h ⟨hsto, h2.1⟩
  show (freeEntries st st.rend_cache).rend_cache_total_allocation =
    sumCharges ([] : List (String × rend_cache_entry_t)) +
    sumCharges (freeEntries st st.rend_cache).rend_cache_v2_dir
  rw [hspec.2.1]
  unfold totalCharges at hbase
  simp only [sumCharges]
  omega

theorem freeAll_inv (st : RendCacheState) :
    AccountInv (rend_cache_free_all st) := fun _ => rfl

theorem cleanV2DirLoop_inv (responsible : Nat → Bool) (now cutoff : Int)
    (force : Nat) (st : RendCacheState) (ls : Int) (bytes : Nat)
    (h : AccountInv st) :
    AccountInv (cleanV2DirLoop responsible now cutoff force st ls
      bytes).1 := by
  rw [cleanV2DirLoop]
  have hst1 : AccountInv
      { rend_cache := (cleanV2DirPass responsible cutoff ls st bytes
          st.rend_cache_v2_dir).1.rend_cache
        rend_cache_v2_dir := (cleanV2DirPass responsible cutoff ls st bytes
          st.rend_cache_v2_dir).2.2
        rend_cache_total_allocation := (cleanV2DirPass responsible cutoff ls
          st bytes st.rend_cache_v2_dir).1.rend_cache_total_allocation
        have_underflowed := (cleanV2DirPass responsible cutoff ls st bytes
          st.rend_cache_v2_dir).1.have_underflowed
        have_overflowed := (cleanV2DirPass responsible cutoff ls st bytes
          st.rend_cache_v2_dir).1.have_overflowed } := by
    intro hfu
    have hacc := cleanV2DirPass_acc responsible cutoff ls
      st.rend_cache_v2_dir st bytes
    have hsto : st.have_overflowed = false := by
      rw [← hacc.2.2.1]; exact hfu.1
    have h2 := hacc.2.2.2 hfu.2
    have hbase := h ⟨hsto, h2.1⟩
    show (cleanV2DirPass responsible cutoff ls st bytes
        st.rend_cache_v2_dir).1.rend_cache_total_allocation =
      sumCharges (cleanV2DirPass responsible cutoff ls st bytes
        st.rend_cache_v2_dir).1.rend_cache +
      sumCharges (cleanV2DirPass responsible cutoff ls st bytes
        st.rend_cache_v2_dir).2.2
    rw [hacc.1]
    unfold totalCharges at hbase
    omega
  by_cases h1 : now < ls + 1800
  · simp only [if_pos h1]
    exact hst1
  · by_cases h2 : (cleanV2DirPass responsible cutoff ls st bytes
        st.rend_cache_v2_dir).2.1 < force
    · simp only [if_neg h1, if_pos h2]
      exact cleanV2DirLoop_inv responsible now cutoff force _ (ls + 1800) _
        hst1
    · simp only [if_neg h1, if_neg h2]
      exact hst1
  termination_by (now - ls).toNat
  decreasing_by
    simp only [not_lt] at h1
    omega

theorem applyOp_inv (op : CacheOp) (st : RendCacheState)
    (h : AccountInv st) : AccountInv (applyOp op st) := by
  cases op with
  | storeDir p a r n an ch => exact storeDir_inv p a r n an st ch h
  | storeClient n d es pa sid => exact storeClient_inv st n d es pa sid h
  | lookupClient q v => exact h
  | lookupDir id an => exact lookupDir_inv st id an h
  | clean n => exact clean_inv st n h
  | cleanDir r n f =>
    exact cleanV2DirLoop_inv r n
      (n - REND_CACHE_MAX_AGE - REND_CACHE_MAX_SKEW) f st
      (n - REND_CACHE_MAX_AGE - REND_CACHE_MAX_SKEW) 0 h
  | purge => exact purge_inv st h
  | freeAll => exact freeAll_inv st

theorem applyOps_inv : ∀ (ops : List CacheOp) (st : RendCacheState),
    AccountInv st → AccountInv (applyOps ops st)
  | [], _, h => h
  | op :: t, st, h => applyOps_inv t (applyOp op st) (applyOp_inv op st h)

/-- Claim C6: accounting invariant.  After any sequence of store, lookup,
sweep, purge and free-all operations starting from the freshly initialised
cache, as long as neither saturation warning has fired, the accountant's
running total equals the sum over all entries reachable from either index of
the per-entry charge `sizeof(Entry) + entry.len + sizeof(parsed)`; hence the
total is at least the charge of every single reachable entry. -/
theorem accounting_invariant (ops : List CacheOp)
    (hov : (applyOps ops initState).have_overflowed = false)
    (hun : (applyOps ops initState).have_underflowed = false) :
    (applyOps ops initState).rend_cache_total_allocation =
      totalCharges (applyOps ops initState) ∧
    (∀ p ∈ (applyOps ops initState).rend_cache,
      rend_cache_entry_allocation p.2 ≤
        (applyOps ops initState).rend_cache_total_allocation) ∧
    (∀ p ∈ (applyOps ops initState).rend_cache_v2_dir,
      rend_cache_entry_allocation p.2 ≤
        (applyOps ops initState).rend_cache_total_allocation) := by
  have hinv := applyOps_inv ops initState (fun _ => rfl)
  have heq := hinv ⟨hov, hun⟩
  refine ⟨heq, ?_, ?_⟩
  · intro p hp
    have hle := charge_le_sumCharges _ p hp
    unfold totalCharges at heq
    omega
  · intro p hp
    have hle := charge_le_sumCharges _ p hp
    unfold totalCharges at heq
    omega

/-- Concrete instantiation of `accounting_invariant`: one client admission
leaves the accountant equal to that entry's charge. -/
theorem accounting_invariant_witness :
    (applyOps [CacheOp.storeClient 1000 "dd" 2 { timestamp := 1000, pk := 1 }
      "aaaaaaaaaaaaaaaa"] initState).have_overflowed = false ∧
    (applyOps [CacheOp.storeClient 1000 "dd" 2 { timestamp := 1000, pk := 1 }
      "aaaaaaaaaaaaaaaa"] initState).rend_cache_total_allocation =
      totalCharges (applyOps [CacheOp.storeClient 1000 "dd" 2
        { timestamp := 1000, pk := 1 } "aaaaaaaaaaaaaaaa"] initState) :=
  ⟨by decide,
   (accounting_invariant [CacheOp.storeClient 1000 "dd" 2
      { timestamp := 1000, pk := 1 } "aaaaaaaaaaaaaaaa"]
      (by decide) (by decide)).1⟩

end RendCache
